import Mathlib

/-!
Verification of `src/scripts/aruco_interface.py` (class `ArucoWindow`).

The Python source composites an input frame onto a white canvas bordered by
four ArUco marker bitmaps, one per corner, reallocating the canvas whenever
the scaled frame size changes, and overlays a cursor on a copy of the canvas.

Shallow embedding notes:
* numpy pixel buffers become the `Image` structure: a shape (rows, cols,
  channels) plus a total pixel function; numpy basic slice assignment
  (`dst[r0:r1, c0:c1] = src`) becomes `sliceAssign`, which reproduces
  Python slice-index semantics (negative indices count from the end,
  `-0` is `0`, out-of-range bounds clamp) and the numpy broadcast check
  (each source dimension must equal the destination region dimension or
  be 1), failing with an error exactly when numpy raises `ValueError`.
* Python `int(...)` applied to a real number becomes `pyInt` (truncation
  toward zero on exact rationals); `image_rescale` is modelled as `ℚ`.
* Fallible code returns `Except String`; an exception raised inside a
  method is modelled by an `Except.error` result.  `updateCursor` performs
  its (infallible) cursor-field assignment before the fallible buffer
  access, so it returns the updated object paired with an `Except` result.
* External collaborators excluded by the spec are parameters:
  `marker` (cv2.aruco.drawMarker output: a deterministic tagSize×tagSize
  single-channel bitmap per marker id), `resizeFn` (cv2.resize), and
  `circle` (cv2.circle, which returns the drawn-on image).  `cv2.imshow`
  and `cv2.namedWindow` are display-sink effects with no pixel-state
  consequences and are not modelled.
-/

namespace Aruco

/-- A numpy pixel buffer: shape plus a total pixel function
(row, column, channel ↦ value). -/
@[ext]
structure Image where
  rows : Nat
  cols : Nat
  chans : Nat
  pix : Nat → Nat → Nat → Nat

/-- Python slice-index resolution for an axis of length `len`: a negative
index counts from the end (clamped below at 0), a nonnegative index is
clamped above at `len`.  Note `-0 = 0` resolves to `0`, as in Python. -/
def pyIdx (len : Nat) (i : Int) : Nat :=
  if i < 0 then ((len : Int) + i).toNat else min i.toNat len

/-- numpy basic slice assignment `dst[r0:r1, c0:c1] = src` (all channels).
Succeeds when `src` broadcasts to the selected region (each of its
dimensions equals the region dimension or is 1), otherwise raises
`ValueError` like numpy. -/
def sliceAssign (dst : Image) (r0 r1 c0 c1 : Int) (src : Image) : Except String Image :=
  let ra := pyIdx dst.rows r0
  let rb := pyIdx dst.rows r1
  let ca := pyIdx dst.cols c0
  let cb := pyIdx dst.cols c1
  if (src.rows = rb - ra ∨ src.rows = 1) ∧ (src.cols = cb - ca ∨ src.cols = 1) ∧
      (src.chans = dst.chans ∨ src.chans = 1) then
    Except.ok
      { rows := dst.rows, cols := dst.cols, chans := dst.chans,
        pix := fun r c ch =>
          if ra ≤ r ∧ r < rb ∧ ca ≤ c ∧ c < cb then
            src.pix (if src.rows = 1 then 0 else r - ra)
                    (if src.cols = 1 then 0 else c - ca)
                    (if src.chans = 1 then 0 else ch)
          else dst.pix r c ch }
  else Except.error "ValueError: could not broadcast input array"

/-- Python `int(q)` on an exact rational: truncation toward zero. -/
def pyInt (q : ℚ) : Int :=
  if q < 0 then -(((-q.num).toNat / q.den : ℕ) : ℤ) else ((q.num.toNat / q.den : ℕ) : ℤ)

/-- The state of an `ArucoWindow` object (`__init__`, lines 19-29 of the
source): configuration fields, the canvas buffer `output_img` (`None`
until allocated), the tracked scaled frame size, and the cursor. -/
structure ArucoWindow where
  tag_size : Int
  tag_border : Int
  image_rescale : ℚ
  output_img : Option Image
  img_height : Int
  img_width : Int
  cursor : Int × Int

/-- `ArucoWindow.__init__`: stores the parameters and initial field values.
The source performs no validation and cannot raise (the `cv2.namedWindow`
display-sink call is not modelled). -/
def init (tag_size tag_border : Int) (image_rescale : ℚ) : ArucoWindow :=
  { tag_size := tag_size, tag_border := tag_border, image_rescale := image_rescale,
    output_img := none, img_height := 0, img_width := 0, cursor := (0, 0) }

/-- An all-white 3-channel buffer, `np.ones((h, w, 3), dtype="uint8")*255`. -/
def whiteImage (h w : Nat) : Image :=
  { rows := h, cols := w, chans := 3, pix := fun _ _ _ => 255 }

/-- `initFrame` (lines 34-38): allocates the canvas of shape
`(img_height + 2*tag_border, img_width + 2*tag_size + 4*tag_border, 3)`,
filled white.  `np.ones` raises on a negative dimension. -/
def initFrame (w : ArucoWindow) : Except String ArucoWindow :=
  if w.img_height + 2 * w.tag_border < 0 ∨ w.img_width + 2 * w.tag_size + 4 * w.tag_border < 0 then
    Except.error "ValueError: negative dimensions are not allowed"
  else
    Except.ok { w with output_img := some (whiteImage
      (w.img_height + 2 * w.tag_border).toNat
      (w.img_width + 2 * w.tag_size + 4 * w.tag_border).toNat) }

/-- The four tag bitmaps of `addCornerTags` (lines 45-57): `np.zeros` of
shape `(tag_size, tag_size, 1)` then `cv2.aruco.drawMarker` with marker id
`id`; the external collaborator leaves a deterministic single-channel
bitmap `marker id`. -/
def tagImage (marker : Nat → Nat → Nat → Nat) (tag_size : Int) (id : Nat) : Image :=
  { rows := tag_size.toNat, cols := tag_size.toNat, chans := 1,
    pix := fun r c _ => marker id r c }

/-- `addCornerTags` (lines 40-71): writes the four marker bitmaps into the
canvas with the slice expressions of the source (ids 0, 1, 2, 3 at upper-left,
upper-right, bottom-right, bottom-left).  Subscripting `None` raises, and
`np.zeros` raises on a negative `tag_size`. -/
def addCornerTags (marker : Nat → Nat → Nat → Nat) (w : ArucoWindow) :
    Except String ArucoWindow :=
  match w.output_img with
  | none => Except.error "TypeError: NoneType object does not support item assignment"
  | some img =>
    if w.tag_size < 0 then Except.error "ValueError: negative dimensions are not allowed"
    else
      match sliceAssign img w.tag_border (w.tag_size + w.tag_border)
          w.tag_border (w.tag_size + w.tag_border) (tagImage marker w.tag_size 0) with
      | Except.error e => Except.error e
      | Except.ok i1 =>
        match sliceAssign i1 w.tag_border (w.tag_size + w.tag_border)
            (3 * w.tag_border + w.tag_size + w.img_width) (-w.tag_border)
            (tagImage marker w.tag_size 1) with
        | Except.error e => Except.error e
        | Except.ok i2 =>
          match sliceAssign i2 (-(w.tag_size + w.tag_border)) (-w.tag_border)
              (3 * w.tag_border + w.tag_size + w.img_width) (-w.tag_border)
              (tagImage marker w.tag_size 2) with
          | Except.error e => Except.error e
          | Except.ok i3 =>
            match sliceAssign i3 (-(w.tag_size + w.tag_border)) (-w.tag_border)
                w.tag_border (w.tag_size + w.tag_border) (tagImage marker w.tag_size 3) with
            | Except.error e => Except.error e
            | Except.ok i4 => Except.ok { w with output_img := some i4 }

/-- Line 75 of `updateFrame`: `int(frame.shape[0]*self.image_rescale)`,
as a function of the rescale factor. -/
def scaledHq (rz : ℚ) (frame : Image) : Int := pyInt ((frame.rows : ℚ) * rz)

/-- Line 76 of `updateFrame`: `int(frame.shape[1]*self.image_rescale)`. -/
def scaledWq (rz : ℚ) (frame : Image) : Int := pyInt ((frame.cols : ℚ) * rz)

/-- The scaled height `img_height` computed by `updateFrame` (line 75). -/
def scaledH (w : ArucoWindow) (frame : Image) : Int := scaledHq w.image_rescale frame

/-- The scaled width `img_width` computed by `updateFrame` (line 76). -/
def scaledW (w : ArucoWindow) (frame : Image) : Int := scaledWq w.image_rescale frame

/-- The reallocation condition of line 81:
`(img_height != self.img_height) or (img_width != self.img_width)`. -/
def reallocB (w : ArucoWindow) (frame : Image) : Bool :=
  (scaledH w frame != w.img_height) || (scaledW w frame != w.img_width)

/-- The body of `updateFrame` after lines 75-78 have produced the scaled
size `(sH, sW)` and the resized frame: the reallocation branch of lines
81-86 followed by the interior slice assignment of lines 89-91.  Factored
out so that the scaled-size computation (the only part using `ℚ`) can be
rewritten separately in proofs. -/
def updateFrameAux (marker : Nat → Nat → Nat → Nat) (resized : Image) (sH sW : Int)
    (w : ArucoWindow) : Except String (ArucoWindow × Bool) :=
  let realloc : Bool := (sH != w.img_height) || (sW != w.img_width)
  let step1 : Except String ArucoWindow :=
    if realloc then
      match initFrame { w with img_height := sH, img_width := sW } with
      | Except.error e => Except.error e
      | Except.ok w2 => addCornerTags marker w2
    else Except.ok w
  match step1 with
  | Except.error e => Except.error e
  | Except.ok w1 =>
    match w1.output_img with
    | none => Except.error "TypeError: NoneType object is not subscriptable"
    | some img =>
      match sliceAssign img w1.tag_border (-w1.tag_border)
          (2 * w1.tag_border + w1.tag_size) (-(2 * w1.tag_border + w1.tag_size)) resized with
      | Except.error e => Except.error e
      | Except.ok img2 => Except.ok ({ w1 with output_img := some img2 }, realloc)

/-- `updateFrame` (lines 73-95): computes the scaled size, resizes the
frame via the external collaborator, reallocates and re-tags the canvas
when the scaled size changed (lines 81-86), then writes the resized frame
into the interior slice (lines 89-91).  The returned Bool records whether
the reallocation branch ran; `cv2.imshow` is a display-sink effect and is
not modelled. -/
def updateFrame (marker : Nat → Nat → Nat → Nat) (resizeFn : Image → Int → Int → Image)
    (w : ArucoWindow) (frame : Image) : Except String (ArucoWindow × Bool) :=
  updateFrameAux marker (resizeFn frame (scaledW w frame) (scaledH w frame))
    (scaledH w frame) (scaledW w frame) w

/-- `updateCursor` (lines 97-107): stores the truncated cursor position,
then copies the canvas and draws the cursor circle and one small circle
per detected corner on the copy via the external `cv2.circle` collaborator.
The cursor assignment (line 99) happens before the fallible
`self.output_img.copy()` (line 100), so the updated object is returned
alongside the `Except` result of the display-image computation. -/
def updateCursor (circle : Image → Int × Int → Nat → Nat × Nat × Nat → Image)
    (w : ArucoWindow) (x y : ℚ) (corners : List (ℚ × ℚ)) :
    ArucoWindow × Except String Image :=
  let w1 := { w with cursor := (pyInt x, pyInt y) }
  match w.output_img with
  | none => (w1, Except.error "AttributeError: NoneType object has no attribute copy")
  | some img =>
    let disp := circle img w1.cursor 10 (255, 0, 0)
    let disp2 := corners.foldl
      (fun d corner => circle d (pyInt corner.1, pyInt corner.2) 4 (255, 255, 0)) disp
    (w1, Except.ok disp2)

/-- Runs `updateFrame` on each frame of a list in order, collecting the
reallocation flags; stops at the first raised exception. -/
def runUpdates (marker : Nat → Nat → Nat → Nat) (resizeFn : Image → Int → Int → Image)
    (w : ArucoWindow) : List Image → Except String (ArucoWindow × List Bool)
  | [] => Except.ok (w, [])
  | f :: fs =>
    match updateFrame marker resizeFn w f with
    | Except.error e => Except.error e
    | Except.ok (w1, b) =>
      match runUpdates marker resizeFn w1 fs with
      | Except.error e => Except.error e
      | Except.ok (w2, bs) => Except.ok (w2, b :: bs)

/-- Runs `updateCursor` for each (x, y, corners) triple in a list,
threading the object state (which `updateCursor` updates even when the
buffer access raises). -/
def runCursors (circle : Image → Int × Int → Nat → Nat × Nat × Nat → Image)
    (w : ArucoWindow) (calls : List (ℚ × ℚ × List (ℚ × ℚ))) : ArucoWindow :=
  calls.foldl (fun wa call => (updateCursor circle wa call.1 call.2.1 call.2.2).1) w

/-- Projects an `updateFrame` result onto the canvas buffer it leaves in
the object. -/
def canvasResult (e : Except String (ArucoWindow × Bool)) : Except String (Option Image) :=
  e.map fun p => p.1.output_img

/-! ### Layout geometry (for the non-overlap claim)

The ideal rectangles placed by the slice arithmetic of lines 60-71 and
89-91, with a negative index `-k` resolved to its end-relative position
`len - k`.  A rectangle is `((rowLow, rowHigh), (colLow, colHigh))`,
half-open, over `ℤ`. -/

/-- A half-open rectangle `((r0, r1), (c0, c1))` of integer pixel
coordinates. -/
def Rect : Type := (Int × Int) × (Int × Int)

/-- Membership of a (row, col) point in a rectangle. -/
def inRect (R : Rect) (p : Int × Int) : Prop :=
  R.1.1 ≤ p.1 ∧ p.1 < R.1.2 ∧ R.2.1 ≤ p.2 ∧ p.2 < R.2.2

instance (R : Rect) (p : Int × Int) : Decidable (inRect R p) := by
  unfold inRect; infer_instance

/-- Two rectangles share no point. -/
def disjointRect (A B : Rect) : Prop := ∀ p : Int × Int, ¬(inRect A p ∧ inRect B p)

/-- Canvas height `ih + 2*tb` (line 36). -/
def canvasH (tb ih : Int) : Int := ih + 2 * tb

/-- Canvas width `iw + 2*ts + 4*tb` (line 37). -/
def canvasW (ts tb iw : Int) : Int := iw + 2 * ts + 4 * tb

/-- Upper-left tag rectangle (lines 60-62). -/
def ulRect (ts tb : Int) : Rect := ((tb, ts + tb), (tb, ts + tb))

/-- Upper-right tag rectangle (lines 63-65). -/
def urRect (ts tb ih iw : Int) : Rect :=
  ((tb, ts + tb), (3 * tb + ts + iw, canvasW ts tb iw - tb))

/-- Bottom-right tag rectangle (lines 66-68). -/
def brRect (ts tb ih iw : Int) : Rect :=
  ((canvasH tb ih - (ts + tb), canvasH tb ih - tb), (3 * tb + ts + iw, canvasW ts tb iw - tb))

/-- Bottom-left tag rectangle (lines 69-71). -/
def blRect (ts tb ih iw : Int) : Rect :=
  ((canvasH tb ih - (ts + tb), canvasH tb ih - tb), (tb, ts + tb))

/-- Interior frame rectangle (lines 89-91): rows `tb : -tb`, columns
`2*tb+ts : -(2*tb+ts)`. -/
def interiorRect (ts tb ih iw : Int) : Rect :=
  ((tb, canvasH tb ih - tb), (2 * tb + ts, canvasW ts tb iw - (2 * tb + ts)))

/-- The five placed rectangles are pairwise disjoint. -/
def layoutDisjoint (ts tb ih iw : Int) : Prop :=
  disjointRect (ulRect ts tb) (urRect ts tb ih iw) ∧
  disjointRect (ulRect ts tb) (brRect ts tb ih iw) ∧
  disjointRect (ulRect ts tb) (blRect ts tb ih iw) ∧
  disjointRect (ulRect ts tb) (interiorRect ts tb ih iw) ∧
  disjointRect (urRect ts tb ih iw) (brRect ts tb ih iw) ∧
  disjointRect (urRect ts tb ih iw) (blRect ts tb ih iw) ∧
  disjointRect (urRect ts tb ih iw) (interiorRect ts tb ih iw) ∧
  disjointRect (brRect ts tb ih iw) (blRect ts tb ih iw) ∧
  disjointRect (brRect ts tb ih iw) (interiorRect ts tb ih iw) ∧
  disjointRect (blRect ts tb ih iw) (interiorRect ts tb ih iw)

/-! ### Canvas content predicates -/

/-- The canvas region starting at row offset `tb` and column offset
`2*tb + ts` holds exactly the pixels of `src` (the frame offset of the claim,
`(2·tagBorder + tagSize, tagBorder)` in (x, y) order). -/
def interiorIs (ts tb : Nat) (src : Image) (img : Image) : Prop :=
  ∀ r c ch, r < src.rows → c < src.cols → ch < src.chans →
    img.pix (tb + r) (2 * tb + ts + c) ch = src.pix r c ch

/-- The four corner regions of the canvas hold the four marker bitmaps
(ids 0 = upper-left, 1 = upper-right, 2 = bottom-right, 3 = bottom-left),
replicated across all three channels, at the row/column offsets produced
by the slice expressions of lines 60-71 for a canvas of tracked scaled
size `(ih, iw)`. -/
def cornersAre (ts tb ih iw : Nat) (marker : Nat → Nat → Nat → Nat) (img : Image) : Prop :=
  ∀ r c ch, r < ts → c < ts → ch < 3 →
    img.pix (tb + r) (tb + c) ch = marker 0 r c ∧
    img.pix (tb + r) (3 * tb + ts + iw + c) ch = marker 1 r c ∧
    img.pix (ih + 2 * tb - (ts + tb) + r) (3 * tb + ts + iw + c) ch = marker 2 r c ∧
    img.pix (ih + 2 * tb - (ts + tb) + r) (tb + c) ch = marker 3 r c

/-- Well-formedness of a reachable `ArucoWindow` state: the tracked size
is nonnegative and the canvas, when allocated, has the shape `initFrame`
gives it; before the first allocation the tracked size is still `(0,0)`. -/
def WF (w : ArucoWindow) : Prop :=
  0 ≤ w.img_height ∧ 0 ≤ w.img_width ∧
  ((w.output_img = none ∧ w.img_height = 0 ∧ w.img_width = 0) ∨
    ∃ img, w.output_img = some img ∧
      (img.rows : Int) = w.img_height + 2 * w.tag_border ∧
      (img.cols : Int) = w.img_width + 2 * w.tag_size + 4 * w.tag_border ∧
      img.chans = 3)

/-- The allocated canvas, if any, has intact corner markers. -/
def WFC (marker : Nat → Nat → Nat → Nat) (w : ArucoWindow) : Prop :=
  ∀ img, w.output_img = some img →
    cornersAre w.tag_size.toNat w.tag_border.toNat w.img_height.toNat w.img_width.toNat
      marker img

/-! ### Basic lemmas -/

theorem pyIdx_natCast (len n : Nat) : pyIdx len (n : Int) = min n len := by
  unfold pyIdx; split <;> omega

theorem pyIdx_neg_natCast (len n : Nat) (h : 1 ≤ n) : pyIdx len (-(n : Int)) = len - n := by
  unfold pyIdx; split <;> omega

theorem pyInt_eq_floor (q : ℚ) (h : 0 ≤ q) : pyInt q = ⌊q⌋ := by
  rw [pyInt, if_neg (not_lt.mpr h), Rat.floor_def]
  have hnum : 0 ≤ q.num := Rat.num_nonneg.mpr h
  obtain ⟨n, hn⟩ := Int.eq_ofNat_of_zero_le hnum
  rw [hn, Int.toNat_natCast, Int.ofNat_tdiv,
    Int.tdiv_eq_ediv (Int.natCast_nonneg n) (Int.natCast_nonneg q.den)]

theorem pyInt_natCast (n : Nat) : pyInt (n : ℚ) = n := by
  rw [pyInt, if_neg (not_lt.mpr (by positivity))]
  simp

/-- With the default `image_rescale = 1`, the scaled height is the raw
height. -/
theorem scaledHq_one (f : Image) : scaledHq 1 f = f.rows := by
  rw [scaledHq, mul_one, pyInt_natCast]

/-- With the default `image_rescale = 1`, the scaled width is the raw
width. -/
theorem scaledWq_one (f : Image) : scaledWq 1 f = f.cols := by
  rw [scaledWq, mul_one, pyInt_natCast]

theorem scaledH_rescale (w : ArucoWindow) (f : Image) :
    scaledH w f = scaledHq w.image_rescale f := rfl

theorem scaledW_rescale (w : ArucoWindow) (f : Image) :
    scaledW w f = scaledWq w.image_rescale f := rfl

/-- Evaluation of a successful slice assignment. -/
theorem sliceAssign_eval (dst : Image) (r0 r1 c0 c1 : Int) (src : Image)
    (h1 : src.rows = pyIdx dst.rows r1 - pyIdx dst.rows r0 ∨ src.rows = 1)
    (h2 : src.cols = pyIdx dst.cols c1 - pyIdx dst.cols c0 ∨ src.cols = 1)
    (h3 : src.chans = dst.chans ∨ src.chans = 1) :
    sliceAssign dst r0 r1 c0 c1 src = Except.ok
      { rows := dst.rows, cols := dst.cols, chans := dst.chans,
        pix := fun r c ch =>
          if pyIdx dst.rows r0 ≤ r ∧ r < pyIdx dst.rows r1 ∧
              pyIdx dst.cols c0 ≤ c ∧ c < pyIdx dst.cols c1 then
            src.pix (if src.rows = 1 then 0 else r - pyIdx dst.rows r0)
                    (if src.cols = 1 then 0 else c - pyIdx dst.cols c0)
                    (if src.chans = 1 then 0 else ch)
          else dst.pix r c ch } := by
  rw [sliceAssign, if_pos ⟨h1, h2, h3⟩]

/-- Inversion of a successful slice assignment. -/
theorem sliceAssign_ok (dst : Image) (r0 r1 c0 c1 : Int) (src out : Image)
    (h : sliceAssign dst r0 r1 c0 c1 src = Except.ok out) :
    (src.rows = pyIdx dst.rows r1 - pyIdx dst.rows r0 ∨ src.rows = 1) ∧
    (src.cols = pyIdx dst.cols c1 - pyIdx dst.cols c0 ∨ src.cols = 1) ∧
    (src.chans = dst.chans ∨ src.chans = 1) ∧
    out.rows = dst.rows ∧ out.cols = dst.cols ∧ out.chans = dst.chans ∧
    ∀ r c ch, out.pix r c ch =
      if pyIdx dst.rows r0 ≤ r ∧ r < pyIdx dst.rows r1 ∧
          pyIdx dst.cols c0 ≤ c ∧ c < pyIdx dst.cols c1 then
        src.pix (if src.rows = 1 then 0 else r - pyIdx dst.rows r0)
                (if src.cols = 1 then 0 else c - pyIdx dst.cols c0)
                (if src.chans = 1 then 0 else ch)
      else dst.pix r c ch := by
  rw [sliceAssign] at h
  split at h
  · rename_i hc
    cases h
    exact ⟨hc.1, hc.2.1, hc.2.2, rfl, rfl, rfl, fun r c ch => rfl⟩
  · cases h

/-- The canvas after a tag bitmap is written into the resolved region
`[ra, rb) × [ca, cb)` (all three channels receive the broadcast
single-channel value). -/
def writeTag (dst : Image) (marker : Nat → Nat → Nat → Nat) (id : Nat)
    (ra rb ca cb T : Nat) : Image :=
  { rows := dst.rows, cols := dst.cols, chans := dst.chans,
    pix := fun r c ch =>
      if ra ≤ r ∧ r < rb ∧ ca ≤ c ∧ c < cb then
        marker id (if T = 1 then 0 else r - ra) (if T = 1 then 0 else c - ca)
      else dst.pix r c ch }

/-- The canvas after a 3-channel source is written into the resolved
region `[ra, rb) × [ca, cb)`. -/
def writeFrame (dst src : Image) (ra rb ca cb : Nat) : Image :=
  { rows := dst.rows, cols := dst.cols, chans := dst.chans,
    pix := fun r c ch =>
      if ra ≤ r ∧ r < rb ∧ ca ≤ c ∧ c < cb then
        src.pix (if src.rows = 1 then 0 else r - ra)
                (if src.cols = 1 then 0 else c - ca) ch
      else dst.pix r c ch }

theorem writeTag_rows (dst : Image) (marker : Nat → Nat → Nat → Nat) (id ra rb ca cb T : Nat) :
    (writeTag dst marker id ra rb ca cb T).rows = dst.rows := rfl

theorem writeTag_cols (dst : Image) (marker : Nat → Nat → Nat → Nat) (id ra rb ca cb T : Nat) :
    (writeTag dst marker id ra rb ca cb T).cols = dst.cols := rfl

theorem writeTag_chans (dst : Image) (marker : Nat → Nat → Nat → Nat) (id ra rb ca cb T : Nat) :
    (writeTag dst marker id ra rb ca cb T).chans = dst.chans := rfl

theorem writeTag_pix (dst : Image) (marker : Nat → Nat → Nat → Nat) (id ra rb ca cb T r c ch : Nat) :
    (writeTag dst marker id ra rb ca cb T).pix r c ch =
      if ra ≤ r ∧ r < rb ∧ ca ≤ c ∧ c < cb then
        marker id (if T = 1 then 0 else r - ra) (if T = 1 then 0 else c - ca)
      else dst.pix r c ch := rfl

theorem writeFrame_pix (dst src : Image) (ra rb ca cb r c ch : Nat) :
    (writeFrame dst src ra rb ca cb).pix r c ch =
      if ra ≤ r ∧ r < rb ∧ ca ≤ c ∧ c < cb then
        src.pix (if src.rows = 1 then 0 else r - ra)
                (if src.cols = 1 then 0 else c - ca) ch
      else dst.pix r c ch := rfl

/-- Evaluation of a tag-bitmap slice assignment whose slice bounds resolve
to `[ra, rb) × [ca, cb)` with both extents equal to the tag side `T`. -/
theorem sliceTag_eval (dst : Image) (marker : Nat → Nat → Nat → Nat) (T : Nat) (id : Nat)
    (r0 r1 c0 c1 : Int) (ra rb ca cb : Nat)
    (hr0 : pyIdx dst.rows r0 = ra) (hr1 : pyIdx dst.rows r1 = rb)
    (hc0 : pyIdx dst.cols c0 = ca) (hc1 : pyIdx dst.cols c1 = cb)
    (hrT : rb - ra = T) (hcT : cb - ca = T) :
    sliceAssign dst r0 r1 c0 c1 (tagImage marker (T : Int) id) =
      Except.ok (writeTag dst marker id ra rb ca cb T) := by
  rw [sliceAssign_eval dst r0 r1 c0 c1 (tagImage marker (T : Int) id)
      (by rw [hr0, hr1]; left; simp [tagImage, hrT])
      (by rw [hc0, hc1]; left; simp [tagImage, hcT])
      (by right; rfl)]
  rw [hr0, hr1, hc0, hc1] <;> rfl

/-- Evaluation of a 3-channel slice assignment whose slice bounds resolve
to `[ra, rb) × [ca, cb)` matching the source shape exactly. -/
theorem sliceFrame_eval (dst src : Image) (r0 r1 c0 c1 : Int) (ra rb ca cb : Nat)
    (hr0 : pyIdx dst.rows r0 = ra) (hr1 : pyIdx dst.rows r1 = rb)
    (hc0 : pyIdx dst.cols c0 = ca) (hc1 : pyIdx dst.cols c1 = cb)
    (hrS : src.rows = rb - ra) (hcS : src.cols = cb - ca)
    (hch : src.chans = 3) (hdch : dst.chans = 3) :
    sliceAssign dst r0 r1 c0 c1 src = Except.ok (writeFrame dst src ra rb ca cb) := by
  rw [sliceAssign_eval dst r0 r1 c0 c1 src
      (by rw [hr0, hr1]; left; exact hrS)
      (by rw [hc0, hc1]; left; exact hcS)
      (by left; rw [hch, hdch])]
  rw [hr0, hr1, hc0, hc1]
  congr 1
  unfold writeFrame
  ext r c ch
  all_goals try rfl
  all_goals dsimp only
  all_goals rw [if_neg (by omega : ¬src.chans = 1)]

/-- Evaluation of `initFrame` for nonnegative dimensions. -/
theorem initFrame_eval (w : ArucoWindow)
    (h1 : 0 ≤ w.img_height + 2 * w.tag_border)
    (h2 : 0 ≤ w.img_width + 2 * w.tag_size + 4 * w.tag_border) :
    initFrame w = Except.ok { w with output_img := some (whiteImage
      (w.img_height + 2 * w.tag_border).toNat
      (w.img_width + 2 * w.tag_size + 4 * w.tag_border).toNat) } := by
  rw [initFrame, if_neg (by omega)]

/-- The canvas produced by `addCornerTags` on a canvas `img0` of shape
`(ihN + 2B, iwN + 2T + 4B, 3)`: the four tag writes of lines 60-71 with
their slice bounds resolved. -/
def taggedCanvas (marker : Nat → Nat → Nat → Nat) (T B ihN iwN : Nat) (img0 : Image) : Image :=
  writeTag (writeTag (writeTag (writeTag img0
    marker 0 B (T + B) B (T + B) T)
    marker 1 B (T + B) (3 * B + T + iwN) (iwN + 2 * T + 3 * B) T)
    marker 2 (ihN + B - T) (ihN + B) (3 * B + T + iwN) (iwN + 2 * T + 3 * B) T)
    marker 3 (ihN + B - T) (ihN + B) B (T + B) T

/-- Evaluation of `addCornerTags` in the regime where each tag write
matches its region exactly (`T + B ≤ ihN + 2B`, `B ≥ 1`); when the scaled
height is 0 or at least `2T` the corner regions of the result hold the
four marker bitmaps. -/
theorem addCornerTags_eval (marker : Nat → Nat → Nat → Nat) (w : ArucoWindow) (img0 : Image)
    (T B iwN ihN : Nat)
    (hw : w.output_img = some img0)
    (hts : w.tag_size = (T : Int)) (htb : w.tag_border = (B : Int))
    (hiw : w.img_width = (iwN : Int))
    (hT : 1 ≤ T) (hB : 1 ≤ B)
    (hrows : img0.rows = ihN + 2 * B) (hcols : img0.cols = iwN + 2 * T + 4 * B)
    (hchans : img0.chans = 3)
    (hTB : T + B ≤ ihN + 2 * B) :
    addCornerTags marker w =
      Except.ok { w with output_img := some (taggedCanvas marker T B ihN iwN img0) } ∧
    (taggedCanvas marker T B ihN iwN img0).rows = ihN + 2 * B ∧
    (taggedCanvas marker T B ihN iwN img0).cols = iwN + 2 * T + 4 * B ∧
    (taggedCanvas marker T B ihN iwN img0).chans = 3 ∧
    ((ihN = 0 ∨ 2 * T ≤ ihN) → cornersAre T B ihN iwN marker (taggedCanvas marker T B ihN iwN img0)) := by
  have p1 : pyIdx img0.rows ((B : ℕ) : ℤ) = B := by rw [hrows, pyIdx_natCast]; omega
  have p2 : pyIdx img0.rows (((T + B : ℕ)) : ℤ) = T + B := by rw [hrows, pyIdx_natCast]; omega
  have p3 : pyIdx img0.cols ((B : ℕ) : ℤ) = B := by rw [hcols, pyIdx_natCast]; omega
  have p4 : pyIdx img0.cols (((T + B : ℕ)) : ℤ) = T + B := by rw [hcols, pyIdx_natCast]; omega
  have p5 : pyIdx img0.cols (((3 * B + T + iwN : ℕ)) : ℤ) = 3 * B + T + iwN := by
    rw [hcols, pyIdx_natCast]; omega
  have p6 : pyIdx img0.cols (-((B : ℕ) : ℤ)) = iwN + 2 * T + 3 * B := by
    rw [hcols, pyIdx_neg_natCast _ _ hB]; omega
  have p7 : pyIdx img0.rows (-(((T + B : ℕ)) : ℤ)) = ihN + B - T := by
    rw [hrows, pyIdx_neg_natCast _ _ (by omega)]; omega
  have p8 : pyIdx img0.rows (-((B : ℕ) : ℤ)) = ihN + B := by
    rw [hrows, pyIdx_neg_natCast _ _ hB]; omega
  have s1 := sliceTag_eval img0 marker T 0 ((B : ℕ) : ℤ) (((T + B : ℕ)) : ℤ)
    ((B : ℕ) : ℤ) (((T + B : ℕ)) : ℤ) B (T + B) B (T + B) p1 p2 p3 p4 (by omega) (by omega)
  have s2 := sliceTag_eval (writeTag img0 marker 0 B (T + B) B (T + B) T) marker T 1
    ((B : ℕ) : ℤ) (((T + B : ℕ)) : ℤ) (((3 * B + T + iwN : ℕ)) : ℤ) (-((B : ℕ) : ℤ))
    B (T + B) (3 * B + T + iwN) (iwN + 2 * T + 3 * B) p1 p2 p5 p6 (by omega) (by omega)
  have s3 := sliceTag_eval (writeTag (writeTag img0 marker 0 B (T + B) B (T + B) T)
      marker 1 B (T + B) (3 * B + T + iwN) (iwN + 2 * T + 3 * B) T) marker T 2
    (-(((T + B : ℕ)) : ℤ)) (-((B : ℕ) : ℤ)) (((3 * B + T + iwN : ℕ)) : ℤ) (-((B : ℕ) : ℤ))
    (ihN + B - T) (ihN + B) (3 * B + T + iwN) (iwN + 2 * T + 3 * B) p7 p8 p5 p6
    (by omega) (by omega)
  have s4 := sliceTag_eval (writeTag (writeTag (writeTag img0 marker 0 B (T + B) B (T + B) T)
      marker 1 B (T + B) (3 * B + T + iwN) (iwN + 2 * T + 3 * B) T)
      marker 2 (ihN + B - T) (ihN + B) (3 * B + T + iwN) (iwN + 2 * T + 3 * B) T) marker T 3
    (-(((T + B : ℕ)) : ℤ)) (-((B : ℕ) : ℤ)) ((B : ℕ) : ℤ) (((T + B : ℕ)) : ℤ)
    (ihN + B - T) (ihN + B) B (T + B) p7 p8 p3 p4 (by omega) (by omega)
  have hcast1 : w.tag_size + w.tag_border = (((T + B : ℕ)) : ℤ) := by
    rw [hts, htb]; push_cast; ring
  have hcast2 : 3 * w.tag_border + w.tag_size + w.img_width = (((3 * B + T + iwN : ℕ)) : ℤ) := by
    rw [hts, htb, hiw]; push_cast; ring
  refine ⟨?_, hrows, hcols, hchans, ?_⟩
  · simp only [addCornerTags, hw]
    rw [if_neg (by rw [hts]; omega), hcast1, hcast2, htb, hts]
    simp only [s1, s2, s3, s4]
    rfl
  · intro hih
    have hidx : ∀ a x : ℕ, x < T → (if T = 1 then 0 else a + x - a) = x := by
      intro a x hx; split <;> omega
    have hidx2 : ∀ x : ℕ, x < T → (if T = 1 then 0 else ihN + 2 * B - (T + B) + x - (ihN + B - T)) = x := by
      intro x hx; split <;> omega
    intro r c ch hr hc hch
    refine ⟨?_, ?_, ?_, ?_⟩
    · show (taggedCanvas marker T B ihN iwN img0).pix (B + r) (B + c) ch = marker 0 r c
      unfold taggedCanvas
      rw [writeTag_pix, if_neg (by omega), writeTag_pix, if_neg (by omega),
        writeTag_pix, if_neg (by omega), writeTag_pix, if_pos (by omega),
        hidx B r hr, hidx B c hc]
    · show (taggedCanvas marker T B ihN iwN img0).pix (B + r) (3 * B + T + iwN + c) ch = marker 1 r c
      unfold taggedCanvas
      rw [writeTag_pix, if_neg (by omega), writeTag_pix, if_neg (by omega),
        writeTag_pix, if_pos (by omega), hidx B r hr, hidx (3 * B + T + iwN) c hc]
    · show (taggedCanvas marker T B ihN iwN img0).pix (ihN + 2 * B - (T + B) + r)
          (3 * B + T + iwN + c) ch = marker 2 r c
      unfold taggedCanvas
      rw [writeTag_pix, if_neg (by omega), writeTag_pix, if_pos (by omega),
        hidx2 r hr, hidx (3 * B + T + iwN) c hc]
    · show (taggedCanvas marker T B ihN iwN img0).pix (ihN + 2 * B - (T + B) + r)
          (B + c) ch = marker 3 r c
      unfold taggedCanvas
      rw [writeTag_pix, if_pos (by omega), hidx2 r hr, hidx B c hc]

/-- Evaluation of the interior write of lines 89-91 on a canvas of shape
`(ihN + 2B, iwN + 2T + 4B, 3)` with a resized frame of the matching scaled
size. -/
theorem interiorWrite_eval (w1 : ArucoWindow) (img resized : Image) (T B ihN iwN : Nat)
    (hts : w1.tag_size = (T : Int)) (htb : w1.tag_border = (B : Int))
    (hB : 1 ≤ B)
    (hrows : img.rows = ihN + 2 * B) (hcols : img.cols = iwN + 2 * T + 4 * B)
    (hchans : img.chans = 3)
    (hrr : resized.rows = ihN) (hrc : resized.cols = iwN) (hrch : resized.chans = 3) :
    sliceAssign img w1.tag_border (-w1.tag_border)
        (2 * w1.tag_border + w1.tag_size) (-(2 * w1.tag_border + w1.tag_size)) resized =
      Except.ok (writeFrame img resized B (ihN + B) (2 * B + T) (iwN + T + 2 * B)) := by
  have hcast : 2 * w1.tag_border + w1.tag_size = (((2 * B + T : ℕ)) : ℤ) := by
    rw [hts, htb]; push_cast; ring
  rw [hcast, htb]
  exact sliceFrame_eval img resized ((B : ℕ) : ℤ) (-((B : ℕ) : ℤ))
    (((2 * B + T : ℕ)) : ℤ) (-(((2 * B + T : ℕ)) : ℤ)) B (ihN + B) (2 * B + T) (iwN + T + 2 * B)
    (by rw [hrows, pyIdx_natCast]; omega)
    (by rw [hrows, pyIdx_neg_natCast _ _ hB]; omega)
    (by rw [hcols, pyIdx_natCast]; omega)
    (by rw [hcols, pyIdx_neg_natCast _ _ (by omega)]; omega)
    (by omega) (by omega) hrch hchans

/-- Full evaluation of `updateFrame` in the success regime: configuration
`(T, B)` with `T, B ≥ 1`, a well-formed state, scaled size `(ihN, iwN)`
with `T ≤ ihN + B`, a resize collaborator returning the requested shape,
and (when the canvas is still unallocated) a scaled size different from
the initial tracked `(0, 0)`.  The call returns normally; the resulting
state tracks the scaled size and holds a canvas of the corresponding
shape, with all other fields unchanged. -/
theorem updateFrame_total (marker : Nat → Nat → Nat → Nat) (resizeFn : Image → Int → Int → Image)
    (w : ArucoWindow) (frame : Image) (T B ihN iwN : Nat)
    (hts : w.tag_size = (T : Int)) (htb : w.tag_border = (B : Int))
    (hT : 1 ≤ T) (hB : 1 ≤ B)
    (hwf : WF w)
    (hsH : scaledH w frame = (ihN : Int)) (hsW : scaledW w frame = (iwN : Int))
    (hTB : T + B ≤ ihN + 2 * B)
    (hrr : (resizeFn frame (scaledW w frame) (scaledH w frame)).rows = ihN)
    (hrc : (resizeFn frame (scaledW w frame) (scaledH w frame)).cols = iwN)
    (hrch : (resizeFn frame (scaledW w frame) (scaledH w frame)).chans = 3)
    (hfirst : w.output_img = none → ¬(ihN = 0 ∧ iwN = 0)) :
    ∃ w1 im, updateFrame marker resizeFn w frame = Except.ok (w1, reallocB w frame) ∧
      w1.tag_size = w.tag_size ∧ w1.tag_border = w.tag_border ∧
      w1.image_rescale = w.image_rescale ∧ w1.cursor = w.cursor ∧
      w1.img_height = (ihN : Int) ∧ w1.img_width = (iwN : Int) ∧
      w1.output_img = some im ∧
      im.rows = ihN + 2 * B ∧ im.cols = iwN + 2 * T + 4 * B ∧ im.chans = 3 := by
  have hrr2 : (resizeFn frame (iwN : Int) (ihN : Int)).rows = ihN := by
    rw [hsH, hsW] at hrr; exact hrr
  have hrc2 : (resizeFn frame (iwN : Int) (ihN : Int)).cols = iwN := by
    rw [hsH, hsW] at hrc; exact hrc
  have hrch2 : (resizeFn frame (iwN : Int) (ihN : Int)).chans = 3 := by
    rw [hsH, hsW] at hrch; exact hrch
  have hreB : reallocB w frame =
      (((ihN : Int) != w.img_height) || ((iwN : Int) != w.img_width)) := by
    rw [reallocB, hsH, hsW]
  by_cases hcase : (ihN : Int) = w.img_height ∧ (iwN : Int) = w.img_width
  · -- sizes unchanged: no reallocation, interior write on the existing canvas
    have hre : (((ihN : Int) != w.img_height) || ((iwN : Int) != w.img_width)) = false := by
      simp [hcase.1, hcase.2]
    obtain ⟨hnn1, hnn2, hcanvas⟩ := hwf
    rcases hcanvas with ⟨hnone, hz1, hz2⟩ | ⟨img0, hsome, hc1, hc2, hc3⟩
    · exact absurd ⟨by omega, by omega⟩ (hfirst hnone)
    · have hc1N : img0.rows = ihN + 2 * B := by rw [htb] at hc1; omega
      have hc2N : img0.cols = iwN + 2 * T + 4 * B := by rw [hts, htb] at hc2; omega
      have hmain : updateFrame marker resizeFn w frame = Except.ok
          ({ w with
              output_img := some (writeFrame img0 (resizeFn frame (iwN : Int) (ihN : Int))
                B (ihN + B) (2 * B + T) (iwN + T + 2 * B)) },
            (((ihN : Int) != w.img_height) || ((iwN : Int) != w.img_width))) := by
        rw [updateFrame, hsH, hsW, updateFrameAux]
        rw [if_neg (by rw [hre]; exact Bool.false_ne_true)]
        simp only [hsome]
        rw [interiorWrite_eval w img0 (resizeFn frame (iwN : Int) (ihN : Int)) T B ihN iwN
          hts htb hB hc1N hc2N hc3 hrr2 hrc2 hrch2]
      exact ⟨{ w with
          output_img := some (writeFrame img0 (resizeFn frame (iwN : Int) (ihN : Int))
            B (ihN + B) (2 * B + T) (iwN + T + 2 * B)) },
        writeFrame img0 (resizeFn frame (iwN : Int) (ihN : Int))
          B (ihN + B) (2 * B + T) (iwN + T + 2 * B),
        by rw [hmain, hreB], rfl, rfl, rfl, rfl, hcase.1.symm, hcase.2.symm,
        rfl, hc1N, hc2N, hc3⟩
  · -- sizes changed: reallocation, corner tags, then interior write
    have hre : (((ihN : Int) != w.img_height) || ((iwN : Int) != w.img_width)) = true := by
      rcases not_and_or.mp hcase with h | h <;> simp [h]
    obtain ⟨hct, hcrows, hccols, hcchans, _⟩ := addCornerTags_eval marker
      { w with
          img_height := (ihN : Int), img_width := (iwN : Int),
          output_img := some (whiteImage (((ihN : Int) + 2 * w.tag_border).toNat)
            (((iwN : Int) + 2 * w.tag_size + 4 * w.tag_border).toNat)) }
      (whiteImage (((ihN : Int) + 2 * w.tag_border).toNat)
        (((iwN : Int) + 2 * w.tag_size + 4 * w.tag_border).toNat))
      T B iwN ihN rfl hts htb rfl hT hB
      (by show (((ihN : Int) + 2 * w.tag_border)).toNat = ihN + 2 * B; rw [htb]; omega)
      (by show (((iwN : Int) + 2 * w.tag_size + 4 * w.tag_border)).toNat = iwN + 2 * T + 4 * B
          rw [hts, htb]; omega)
      rfl hTB
    have hmain : updateFrame marker resizeFn w frame = Except.ok
        ({ w with
            img_height := (ihN : Int), img_width := (iwN : Int),
            output_img := some (writeFrame
              (taggedCanvas marker T B ihN iwN
                (whiteImage (((ihN : Int) + 2 * w.tag_border).toNat)
                  (((iwN : Int) + 2 * w.tag_size + 4 * w.tag_border).toNat)))
              (resizeFn frame (iwN : Int) (ihN : Int))
              B (ihN + B) (2 * B + T) (iwN + T + 2 * B)) },
          (((ihN : Int) != w.img_height) || ((iwN : Int) != w.img_width))) := by
      rw [updateFrame, hsH, hsW, updateFrameAux]
      rw [if_pos (by rw [hre])]
      rw [initFrame_eval _ (by dsimp only; rw [htb]; omega)
        (by dsimp only; rw [hts, htb]; omega)]
      simp only [hct]
      rw [interiorWrite_eval _ _ _ T B ihN iwN hts htb hB hcrows hccols hcchans hrr2 hrc2 hrch2]
    exact ⟨{ w with
        img_height := (ihN : Int), img_width := (iwN : Int),
        output_img := some (writeFrame
          (taggedCanvas marker T B ihN iwN
            (whiteImage (((ihN : Int) + 2 * w.tag_border).toNat)
              (((iwN : Int) + 2 * w.tag_size + 4 * w.tag_border).toNat)))
          (resizeFn frame (iwN : Int) (ihN : Int))
          B (ihN + B) (2 * B + T) (iwN + T + 2 * B)) },
      writeFrame
        (taggedCanvas marker T B ihN iwN
          (whiteImage (((ihN : Int) + 2 * w.tag_border).toNat)
            (((iwN : Int) + 2 * w.tag_size + 4 * w.tag_border).toNat)))
        (resizeFn frame (iwN : Int) (ihN : Int))
        B (ihN + B) (2 * B + T) (iwN + T + 2 * B),
      by rw [hmain, hreB], rfl, rfl, rfl, rfl, rfl, rfl, rfl,
      hcrows, hccols, hcchans⟩

/-- Inversion: a successful `initFrame` only replaces `output_img` with
the white canvas. -/
theorem initFrame_ok (w w2 : ArucoWindow) (h : initFrame w = Except.ok w2) :
    w2 = { w with output_img := some (whiteImage
      (w.img_height + 2 * w.tag_border).toNat
      (w.img_width + 2 * w.tag_size + 4 * w.tag_border).toNat) } := by
  rw [initFrame] at h
  split at h
  · cases h
  · cases h; rfl

/-- Inversion: a successful `addCornerTags` only replaces `output_img`. -/
theorem addCornerTags_ok (marker : Nat → Nat → Nat → Nat) (w w2 : ArucoWindow)
    (h : addCornerTags marker w = Except.ok w2) :
    ∃ im, w2 = { w with output_img := some im } := by
  rw [addCornerTags] at h
  split at h
  · cases h
  · split at h
    · cases h
    · split at h
      · cases h
      · split at h
        · cases h
        · split at h
          · cases h
          · split at h
            · cases h
            · rename_i i4 heq4
              cases h
              exact ⟨i4, rfl⟩

/-- Inversion: field bookkeeping of any successful `updateFrame` call.
The tracked size always ends up equal to the computed scaled size (either
it already was, or the reallocation branch set it); configuration fields
and the cursor are untouched; the canvas is allocated; the returned flag
is the line-81 condition. -/
theorem updateFrame_ok_fields (marker : Nat → Nat → Nat → Nat)
    (resizeFn : Image → Int → Int → Image) (w : ArucoWindow) (frame : Image)
    (w1 : ArucoWindow) (b : Bool)
    (h : updateFrame marker resizeFn w frame = Except.ok (w1, b)) :
    w1.img_height = scaledH w frame ∧ w1.img_width = scaledW w frame ∧
    w1.tag_size = w.tag_size ∧ w1.tag_border = w.tag_border ∧
    w1.image_rescale = w.image_rescale ∧ w1.cursor = w.cursor ∧
    (∃ im, w1.output_img = some im) ∧ b = reallocB w frame := by
  rw [updateFrame] at h
  rw [updateFrameAux] at h
  split at h
  · cases h
  · rename_i w1p hstep
    split at h
    · cases h
    · rename_i img hsome
      split at h
      · cases h
      · rename_i img2 hslice
        rw [Except.ok.injEq, Prod.mk.injEq] at h
        obtain ⟨h1, h2⟩ := h
        subst h1
        split at hstep
        · -- reallocation branch
          rename_i hcond
          split at hstep
          · cases hstep
          · rename_i w2 hinit
            obtain ⟨im3, hw3⟩ := addCornerTags_ok _ _ _ hstep
            have hw2 := initFrame_ok _ _ hinit
            subst hw3
            subst hw2
            exact ⟨rfl, rfl, rfl, rfl, rfl, rfl, ⟨img2, rfl⟩, h2.symm⟩
        · -- no reallocation
          rename_i hcond
          cases hstep
          have hcond2 : scaledH w frame = w.img_height ∧ scaledW w frame = w.img_width := by
            simpa using hcond
          exact ⟨hcond2.1.symm, hcond2.2.symm, rfl, rfl, rfl, rfl, ⟨img2, rfl⟩, h2.symm⟩

/-- Inversion: a successful `addCornerTags` in particular had a
successful first (upper-left) slice assignment. -/
theorem addCornerTags_ok_first (marker : Nat → Nat → Nat → Nat) (w w2 : ArucoWindow)
    (img0 : Image) (hw : w.output_img = some img0)
    (h : addCornerTags marker w = Except.ok w2) :
    ∃ i1, sliceAssign img0 w.tag_border (w.tag_size + w.tag_border)
      w.tag_border (w.tag_size + w.tag_border) (tagImage marker w.tag_size 0) =
        Except.ok i1 := by
  simp only [addCornerTags, hw] at h
  split at h
  · cases h
  · split at h
    · cases h
    · rename_i i1 heq
      exact ⟨i1, heq⟩

/-- Content of the canvas after the interior write: the interior holds the
resized frame, and corner-marker content survives because the interior
columns `[2B+T, iwN+T+2B)` are disjoint from both tag column bands. -/
theorem writeFrame_content (im resized : Image) (marker : Nat → Nat → Nat → Nat)
    (T B ihN iwN : Nat)
    (hrr : resized.rows = ihN) (hrc : resized.cols = iwN) :
    interiorIs T B resized (writeFrame im resized B (ihN + B) (2 * B + T) (iwN + T + 2 * B)) ∧
    (cornersAre T B ihN iwN marker im →
      cornersAre T B ihN iwN marker
        (writeFrame im resized B (ihN + B) (2 * B + T) (iwN + T + 2 * B))) := by
  constructor
  · intro r c ch hr hc hch
    rw [hrr] at hr
    rw [hrc] at hc
    rw [writeFrame_pix, if_pos (by omega)]
    have e1 : (if resized.rows = 1 then 0 else B + r - B) = r := by
      rw [hrr]; split <;> omega
    have e2 : (if resized.cols = 1 then 0 else 2 * B + T + c - (2 * B + T)) = c := by
      rw [hrc]; split <;> omega
    rw [e1, e2]
  · intro hcorners r c ch hr hc hch
    obtain ⟨k1, k2, k3, k4⟩ := hcorners r c ch hr hc hch
    refine ⟨?_, ?_, ?_, ?_⟩
    · rw [writeFrame_pix, if_neg (by omega)]; exact k1
    · rw [writeFrame_pix, if_neg (by omega)]; exact k2
    · rw [writeFrame_pix, if_neg (by omega)]; exact k3
    · rw [writeFrame_pix, if_neg (by omega)]; exact k4

/-- Canvas content after any successful `updateFrame` call, in the regime
where the scaled height is 0 or at least twice the tag size: the interior
region holds exactly the resized frame and the four corner regions hold
the marker bitmaps. -/
theorem updateFrame_content (marker : Nat → Nat → Nat → Nat)
    (resizeFn : Image → Int → Int → Image) (w : ArucoWindow) (frame : Image)
    (w1 : ArucoWindow) (b : Bool) (T B ihN iwN : Nat)
    (hts : w.tag_size = (T : Int)) (htb : w.tag_border = (B : Int))
    (hT : 1 ≤ T) (hB : 1 ≤ B)
    (hwf : WF w) (hwfc : WFC marker w)
    (hsH : scaledH w frame = (ihN : Int)) (hsW : scaledW w frame = (iwN : Int))
    (hih : ihN = 0 ∨ 2 * T ≤ ihN)
    (hrr : (resizeFn frame (scaledW w frame) (scaledH w frame)).rows = ihN)
    (hrc : (resizeFn frame (scaledW w frame) (scaledH w frame)).cols = iwN)
    (hrch : (resizeFn frame (scaledW w frame) (scaledH w frame)).chans = 3)
    (h : updateFrame marker resizeFn w frame = Except.ok (w1, b)) :
    ∃ im, w1.output_img = some im ∧
      interiorIs T B (resizeFn frame (scaledW w frame) (scaledH w frame)) im ∧
      cornersAre T B ihN iwN marker im := by
  rw [updateFrame] at h
  rw [updateFrameAux] at h
  split at h
  · cases h
  · rename_i w1p hstep
    split at h
    · cases h
    · rename_i img hsome
      split at h
      · cases h
      · rename_i img2 hslice
        rw [Except.ok.injEq, Prod.mk.injEq] at h
        obtain ⟨h1, h2⟩ := h
        subst h1
        refine ⟨img2, rfl, ?_⟩
        split at hstep
        · -- reallocation branch: white canvas, corner tags, interior write
          rename_i hcond
          split at hstep
          · cases hstep
          · rename_i w2 hinit
            have hw2 := initFrame_ok _ _ hinit
            rw [hw2] at hstep
            dsimp only at hstep
            -- derive the first-write success condition
            obtain ⟨i1, hfirst⟩ := addCornerTags_ok_first marker
              { w with
                  img_height := scaledH w frame, img_width := scaledW w frame,
                  output_img := some (whiteImage ((scaledH w frame + 2 * w.tag_border).toNat)
                    ((scaledW w frame + 2 * w.tag_size + 4 * w.tag_border).toNat)) }
              w1p
              (whiteImage ((scaledH w frame + 2 * w.tag_border).toNat)
                ((scaledW w frame + 2 * w.tag_size + 4 * w.tag_border).toNat))
              rfl hstep
            obtain ⟨hbcr, _⟩ := sliceAssign_ok _ _ _ _ _ _ _ hfirst
            dsimp only at hbcr
            have hcastTB : w.tag_size + w.tag_border = (((T + B : ℕ)) : ℤ) := by
              rw [hts, htb]; push_cast; ring
            have hwhiter : (whiteImage ((scaledH w frame + 2 * w.tag_border).toNat)
                ((scaledW w frame + 2 * w.tag_size + 4 * w.tag_border).toNat)).rows =
                ihN + 2 * B := by
              show (scaledH w frame + 2 * w.tag_border).toNat = ihN + 2 * B
              rw [hsH, htb]; omega
            have hwhitec : (whiteImage ((scaledH w frame + 2 * w.tag_border).toNat)
                ((scaledW w frame + 2 * w.tag_size + 4 * w.tag_border).toNat)).cols =
                iwN + 2 * T + 4 * B := by
              show (scaledW w frame + 2 * w.tag_size + 4 * w.tag_border).toNat =
                iwN + 2 * T + 4 * B
              rw [hsW, hts, htb]; omega
            have hTB : T + B ≤ ihN + 2 * B := by
              rw [hwhiter, hcastTB, htb, pyIdx_natCast, pyIdx_natCast] at hbcr
              have htag : (tagImage marker w.tag_size 0).rows = T := by
                show w.tag_size.toNat = T
                rw [hts]; exact Int.toNat_natCast T
              rw [htag] at hbcr
              omega
            obtain ⟨hct, hcrows, hccols, hcchans, hcorners⟩ := addCornerTags_eval marker
              { w with
                  img_height := scaledH w frame, img_width := scaledW w frame,
                  output_img := some (whiteImage ((scaledH w frame + 2 * w.tag_border).toNat)
                    ((scaledW w frame + 2 * w.tag_size + 4 * w.tag_border).toNat)) }
              (whiteImage ((scaledH w frame + 2 * w.tag_border).toNat)
                ((scaledW w frame + 2 * w.tag_size + 4 * w.tag_border).toNat))
              T B iwN ihN rfl hts htb hsW hT hB hwhiter hwhitec rfl hTB
            rw [hct, Except.ok.injEq] at hstep
            subst hstep
            dsimp only at hsome
            rw [Option.some.injEq] at hsome
            subst hsome
            dsimp only at hslice
            rw [interiorWrite_eval w _ _ T B ihN iwN hts htb hB hcrows hccols hcchans
              hrr hrc hrch, Except.ok.injEq] at hslice
            subst hslice
            obtain ⟨hint, hcor⟩ := writeFrame_content _ _ marker T B ihN iwN hrr hrc
            exact ⟨hint, hcor (hcorners hih)⟩
        · -- no reallocation: interior write on the existing canvas
          rename_i hcond
          cases hstep
          have hcond2 : scaledH w frame = w.img_height ∧ scaledW w frame = w.img_width := by
            simpa using hcond
          obtain ⟨hnn1, hnn2, hcanvas⟩ := hwf
          rcases hcanvas with ⟨hnone, hz1, hz2⟩ | ⟨img0, hsome0, hc1, hc2, hc3⟩
          · rw [hnone] at hsome; cases hsome
          · rw [hsome0, Option.some.injEq] at hsome
            subst hsome
            have hc1N : img0.rows = ihN + 2 * B := by
              rw [← hcond2.1, hsH] at hc1
              rw [htb] at hc1
              omega
            have hc2N : img0.cols = iwN + 2 * T + 4 * B := by
              rw [← hcond2.2, hsW] at hc2
              rw [hts, htb] at hc2
              omega
            have hcorners := hwfc img0 hsome0
            have htsN : w.tag_size.toNat = T := by rw [hts]; exact Int.toNat_natCast T
            have htbN : w.tag_border.toNat = B := by rw [htb]; exact Int.toNat_natCast B
            have hihN : w.img_height.toNat = ihN := by
              rw [← hcond2.1, hsH]; exact Int.toNat_natCast ihN
            have hiwN : w.img_width.toNat = iwN := by
              rw [← hcond2.2, hsW]; exact Int.toNat_natCast iwN
            rw [htsN, htbN, hihN, hiwN] at hcorners
            rw [interiorWrite_eval _ _ _ T B ihN iwN hts htb hB hc1N hc2N hc3
              hrr hrc hrch, Except.ok.injEq] at hslice
            subst hslice
            obtain ⟨hint, hcor⟩ := writeFrame_content _ _ marker T B ihN iwN hrr hrc
            exact ⟨hint, hcor hcorners⟩

/-- A state that has completed at least one successful `updateFrame` with
configuration `(T, B, rz)` and tracked scaled size `(ihN, iwN)`. -/
def Ready (T B : Nat) (rz : ℚ) (ihN iwN : Nat) (w : ArucoWindow) : Prop :=
  w.tag_size = (T : Int) ∧ w.tag_border = (B : Int) ∧ w.image_rescale = rz ∧
  w.img_height = (ihN : Int) ∧ w.img_width = (iwN : Int) ∧
  ∃ im, w.output_img = some im ∧
    im.rows = ihN + 2 * B ∧ im.cols = iwN + 2 * T + 4 * B ∧ im.chans = 3

theorem bne_natCast (a b : Nat) : (((a : Int)) != ((b : Int))) = (a != b) := by
  by_cases e : a = b
  · subst e
    rw [bne_self_eq_false, bne_self_eq_false]
  · have e2 : (a : Int) ≠ (b : Int) := by exact_mod_cast e
    rw [show (((a : Int)) != ((b : Int))) = true from bne_iff_ne.mpr e2,
      show (a != b) = true from bne_iff_ne.mpr e]

theorem Ready_WF (T B : Nat) (rz : ℚ) (ihN iwN : Nat) (w : ArucoWindow)
    (h : Ready T B rz ihN iwN w) : WF w := by
  obtain ⟨h1, h2, h3, h4, h5, im, h6, h7, h8, h9⟩ := h
  refine ⟨by rw [h4]; omega, by rw [h5]; omega, Or.inr ⟨im, h6, ?_, ?_, h9⟩⟩
  · rw [h4, h2, h7]; push_cast; ring
  · rw [h5, h1, h2, h8]; push_cast; ring

/-- One `updateFrame` step from a `Ready` state: returns normally with the
reallocation flag equal to whether the new scaled size differs from the
tracked one, and leaves a `Ready` state at the new size. -/
theorem updateFrame_step_ready (marker : Nat → Nat → Nat → Nat)
    (resizeFn : Image → Int → Int → Image) (f : Image) (rz : ℚ)
    (T B ihN iwN ihN2 iwN2 : Nat) (w : ArucoWindow)
    (hT : 1 ≤ T) (hB : 1 ≤ B)
    (hsH : scaledHq rz f = (ihN2 : Int)) (hsW : scaledWq rz f = (iwN2 : Int))
    (hTB : T + B ≤ ihN2 + 2 * B)
    (hrr : (resizeFn f (iwN2 : Int) (ihN2 : Int)).rows = ihN2)
    (hrc : (resizeFn f (iwN2 : Int) (ihN2 : Int)).cols = iwN2)
    (hrch : (resizeFn f (iwN2 : Int) (ihN2 : Int)).chans = 3)
    (hready : Ready T B rz ihN iwN w) :
    ∃ w1, updateFrame marker resizeFn w f =
        Except.ok (w1, ((ihN2 != ihN) || (iwN2 != iwN))) ∧ Ready T B rz ihN2 iwN2 w1 := by
  obtain ⟨h1, h2, h3, h4, h5, im, h6, h7, h8, h9⟩ := hready
  have hsH2 : scaledH w f = (ihN2 : Int) := by rw [scaledH_rescale, h3]; exact hsH
  have hsW2 : scaledW w f = (iwN2 : Int) := by rw [scaledW_rescale, h3]; exact hsW
  obtain ⟨w1, im1, hok, k1, k2, k3, k4, k5, k6, k7, k8, k9, k10⟩ :=
    updateFrame_total marker resizeFn w f T B ihN2 iwN2 h1 h2 hT hB
      (Ready_WF T B rz ihN iwN w ⟨h1, h2, h3, h4, h5, im, h6, h7, h8, h9⟩)
      hsH2 hsW2 hTB
      (by rw [hsH2, hsW2]; exact hrr) (by rw [hsH2, hsW2]; exact hrc)
      (by rw [hsH2, hsW2]; exact hrch)
      (by intro hnone; rw [hnone] at h6; cases h6)

  have hflag : reallocB w f = ((ihN2 != ihN) || (iwN2 != iwN)) := by
    rw [reallocB, hsH2, hsW2, h4, h5, bne_natCast, bne_natCast]
  exact ⟨w1, by rw [hok, hflag], k1.trans h1, k2.trans h2, k3.trans h3, k5, k6,
    im1, k7, k8, k9, k10⟩

/-- The very first `updateFrame` call on a freshly constructed window with
a nonzero scaled size: the tracked size `(0,0)` differs from the scaled
size, so the reallocation branch runs and the flag is `true`. -/
theorem updateFrame_step_fresh (marker : Nat → Nat → Nat → Nat)
    (resizeFn : Image → Int → Int → Image) (f : Image) (rz : ℚ)
    (T B ihN2 iwN2 : Nat)
    (hT : 1 ≤ T) (hB : 1 ≤ B)
    (hsH : scaledHq rz f = (ihN2 : Int)) (hsW : scaledWq rz f = (iwN2 : Int))
    (hTB : T + B ≤ ihN2 + 2 * B)
    (hrr : (resizeFn f (iwN2 : Int) (ihN2 : Int)).rows = ihN2)
    (hrc : (resizeFn f (iwN2 : Int) (ihN2 : Int)).cols = iwN2)
    (hrch : (resizeFn f (iwN2 : Int) (ihN2 : Int)).chans = 3)
    (hnz : ¬(ihN2 = 0 ∧ iwN2 = 0)) :
    ∃ w1, updateFrame marker resizeFn (init (T : Int) (B : Int) rz) f =
        Except.ok (w1, true) ∧ Ready T B rz ihN2 iwN2 w1 := by
  have hsH2 : scaledH (init (T : Int) (B : Int) rz) f = (ihN2 : Int) := hsH
  have hsW2 : scaledW (init (T : Int) (B : Int) rz) f = (iwN2 : Int) := hsW
  obtain ⟨w1, im1, hok, k1, k2, k3, k4, k5, k6, k7, k8, k9, k10⟩ :=
    updateFrame_total marker resizeFn (init (T : Int) (B : Int) rz) f T B ihN2 iwN2
      rfl rfl hT hB
      ⟨le_refl 0, le_refl 0, Or.inl ⟨rfl, rfl, rfl⟩⟩
      hsH2 hsW2 hTB
      (by rw [hsH2, hsW2]; exact hrr) (by rw [hsH2, hsW2]; exact hrc)
      (by rw [hsH2, hsW2]; exact hrch)
      (fun _ => hnz)
  have hflag : reallocB (init (T : Int) (B : Int) rz) f = true := by
    rw [reallocB, hsH2, hsW2]
    show (((ihN2 : Int) != ((0 : Nat) : Int)) || ((iwN2 : Int) != ((0 : Nat) : Int))) = true
    rw [bne_natCast, bne_natCast]
    rcases not_and_or.mp hnz with h | h <;> simp [bne_iff_ne, h]
  exact ⟨w1, by rw [hok, hflag], k1, k2, k3, k5, k6, im1, k7, k8, k9, k10⟩

/-- Repeated `updateFrame` calls with frames of an unchanged scaled size
from a `Ready` state never reallocate: every flag is `false`. -/
theorem runUpdates_replicate (marker : Nat → Nat → Nat → Nat)
    (resizeFn : Image → Int → Int → Image) (f : Image) (rz : ℚ)
    (T B ihN iwN : Nat) (hT : 1 ≤ T) (hB : 1 ≤ B)
    (hsH : scaledHq rz f = (ihN : Int)) (hsW : scaledWq rz f = (iwN : Int))
    (hTB : T + B ≤ ihN + 2 * B)
    (hrr : (resizeFn f (iwN : Int) (ihN : Int)).rows = ihN)
    (hrc : (resizeFn f (iwN : Int) (ihN : Int)).cols = iwN)
    (hrch : (resizeFn f (iwN : Int) (ihN : Int)).chans = 3) :
    ∀ (n : Nat) (w : ArucoWindow), Ready T B rz ihN iwN w →
      ∃ wn, runUpdates marker resizeFn w (List.replicate n f) =
          Except.ok (wn, List.replicate n false) ∧ Ready T B rz ihN iwN wn := by
  intro n
  induction n with
  | zero => exact fun w hw => ⟨w, rfl, hw⟩
  | succ n ihn =>
    intro w hw
    obtain ⟨w1, hok, hready1⟩ := updateFrame_step_ready marker resizeFn f rz
      T B ihN iwN ihN iwN w hT hB hsH hsW hTB hrr hrc hrch hw
    have hflag : ((ihN != ihN) || (iwN != iwN)) = false := by simp
    rw [hflag] at hok
    obtain ⟨wn, hrun, hreadyn⟩ := ihn w1 hready1
    refine ⟨wn, ?_, hreadyn⟩
    rw [List.replicate_succ, List.replicate_succ]
    show runUpdates marker resizeFn w (f :: List.replicate n f) =
      Except.ok (wn, false :: List.replicate n false)
    simp only [runUpdates, hok, hrun]

/-! ### The cursor field is irrelevant to, and untouched by, `updateFrame` -/

/-- Writing the cursor field. -/
def setCur (c : Int × Int) (w : ArucoWindow) : ArucoWindow := { w with cursor := c }

theorem initFrame_setCur (w : ArucoWindow) (c : Int × Int) :
    initFrame (setCur c w) = (initFrame w).map (setCur c) := by
  rcases w with ⟨ts, tb, rz, oi, ih, iw, cur⟩
  show initFrame ⟨ts, tb, rz, oi, ih, iw, c⟩ =
    (initFrame ⟨ts, tb, rz, oi, ih, iw, cur⟩).map (setCur c)
  rw [initFrame, initFrame]
  dsimp only
  by_cases hc : ih + 2 * tb < 0 ∨ iw + 2 * ts + 4 * tb < 0
  · rw [if_pos hc, if_pos hc]; rfl
  · rw [if_neg hc, if_neg hc]; rfl

theorem addCornerTags_setCur (marker : Nat → Nat → Nat → Nat) (w : ArucoWindow)
    (c : Int × Int) :
    addCornerTags marker (setCur c w) = (addCornerTags marker w).map (setCur c) := by
  rcases w with ⟨ts, tb, rz, oi, ih, iw, cur⟩
  show addCornerTags marker ⟨ts, tb, rz, oi, ih, iw, c⟩ =
    (addCornerTags marker ⟨ts, tb, rz, oi, ih, iw, cur⟩).map (setCur c)
  rw [addCornerTags, addCornerTags]
  dsimp only
  rcases oi with _ | img
  · rfl
  · dsimp only
    by_cases hc : ts < 0
    · rw [if_pos hc, if_pos hc]; rfl
    · rw [if_neg hc, if_neg hc]
      rcases sliceAssign img tb (ts + tb) tb (ts + tb) (tagImage marker ts 0) with e | i1
      · rfl
      · dsimp only
        rcases sliceAssign i1 tb (ts + tb) (3 * tb + ts + iw) (-tb) (tagImage marker ts 1) with e | i2
        · rfl
        · dsimp only
          rcases sliceAssign i2 (-(ts + tb)) (-tb) (3 * tb + ts + iw) (-tb)
              (tagImage marker ts 2) with e | i3
          · rfl
          · dsimp only
            rcases sliceAssign i3 (-(ts + tb)) (-tb) tb (ts + tb)
                (tagImage marker ts 3) with e | i4 <;> rfl

theorem scaledH_setCur (w : ArucoWindow) (c : Int × Int) (f : Image) :
    scaledH (setCur c w) f = scaledH w f := rfl

theorem scaledW_setCur (w : ArucoWindow) (c : Int × Int) (f : Image) :
    scaledW (setCur c w) f = scaledW w f := rfl

theorem updateFrameAux_setCur (marker : Nat → Nat → Nat → Nat) (resized : Image)
    (sH sW : Int) (w : ArucoWindow) (c : Int × Int) :
    updateFrameAux marker resized sH sW (setCur c w) =
      (updateFrameAux marker resized sH sW w).map (fun p => (setCur c p.1, p.2)) := by
  rcases w with ⟨ts, tb, rz, oi, ih, iw, cur⟩
  show updateFrameAux marker resized sH sW ⟨ts, tb, rz, oi, ih, iw, c⟩ =
    (updateFrameAux marker resized sH sW ⟨ts, tb, rz, oi, ih, iw, cur⟩).map
      (fun p => (setCur c p.1, p.2))
  rw [updateFrameAux, updateFrameAux]
  dsimp only
  by_cases hc : ((sH != ih) || (sW != iw)) = true
  · rw [if_pos hc, if_pos hc]
    rw [show initFrame ⟨ts, tb, rz, oi, sH, sW, c⟩ =
      (initFrame ⟨ts, tb, rz, oi, sH, sW, cur⟩).map (setCur c) from
      initFrame_setCur ⟨ts, tb, rz, oi, sH, sW, cur⟩ c]
    rcases initFrame ⟨ts, tb, rz, oi, sH, sW, cur⟩ with e | w2
    · rfl
    · dsimp only [Except.map]
      rw [addCornerTags_setCur marker w2 c]
      rcases addCornerTags marker w2 with e | w3
      · rfl
      · dsimp only [Except.map]
        rcases w3 with ⟨ts3, tb3, rz3, oi3, ih3, iw3, cur3⟩
        dsimp only [setCur]
        rcases oi3 with _ | img3
        · rfl
        · dsimp only
          rcases sliceAssign img3 tb3 (-tb3) (2 * tb3 + ts3) (-(2 * tb3 + ts3))
              resized with e | img4 <;> rfl
  · rw [if_neg hc, if_neg hc]
    dsimp only
    rcases oi with _ | img
    · rfl
    · dsimp only
      rcases sliceAssign img tb (-tb) (2 * tb + ts) (-(2 * tb + ts))
          resized with e | img4 <;> rfl

/-- `updateFrame` reads every field except the cursor and writes every
field except the configuration and the cursor: its action commutes with
setting the cursor. -/
theorem updateFrame_setCur (marker : Nat → Nat → Nat → Nat)
    (resizeFn : Image → Int → Int → Image) (w : ArucoWindow) (c : Int × Int) (frame : Image) :
    updateFrame marker resizeFn (setCur c w) frame =
      (updateFrame marker resizeFn w frame).map (fun p => (setCur c p.1, p.2)) := by
  rw [updateFrame, updateFrame]
  show updateFrameAux marker (resizeFn frame (scaledW w frame) (scaledH w frame))
      (scaledH w frame) (scaledW w frame) (setCur c w) = _
  exact updateFrameAux_setCur marker _ _ _ w c

/-- The state component of `updateCursor` is exactly the input state with
the cursor replaced by the truncated coordinates (line 99 runs before the
fallible buffer access of line 100). -/
theorem updateCursor_state (circle : Image → Int × Int → Nat → Nat × Nat × Nat → Image)
    (w : ArucoWindow) (x y : ℚ) (corners : List (ℚ × ℚ)) :
    (updateCursor circle w x y corners).1 = { w with cursor := (pyInt x, pyInt y) } := by
  rw [updateCursor]
  rcases h : w.output_img with _ | img <;> rfl

/-- `runCursors` only ever rewrites the cursor field. -/
theorem runCursors_eq_setCur (circle : Image → Int × Int → Nat → Nat × Nat × Nat → Image)
    (w : ArucoWindow) (calls : List (ℚ × ℚ × List (ℚ × ℚ))) :
    ∃ c, runCursors circle w calls = setCur c w := by
  induction calls generalizing w with
  | nil => exact ⟨w.cursor, rfl⟩
  | cons call rest ih =>
    obtain ⟨c, hc⟩ := ih { w with cursor := (pyInt call.1, pyInt call.2.1) }
    refine ⟨c, ?_⟩
    show runCursors circle ((updateCursor circle w call.1 call.2.1 call.2.2).1) rest = setCur c w
    rw [updateCursor_state]
    exact hc

/-! ### Concrete collaborator instances and frames, for closed statements

The marker generator, resize, and circle collaborators are external to the
repository (spec section 1); the claim theorems quantify over them, and
these concrete instances are used to state closed witness and
counterexample theorems. -/

/-- A concrete deterministic marker bitmap family: distinct marker ids give
distinct pixel values. -/
def markerC : Nat → Nat → Nat → Nat := fun id r c => 100 * id + 10 * r + c

/-- A marker family whose bitmap value is just the marker id. -/
def markerId : Nat → Nat → Nat → Nat := fun id _ _ => id

/-- A concrete resize collaborator satisfying the spec contract of
section 6: the result has the requested `(width, height)` shape and the
source channel count. -/
def resizeC : Image → Int → Int → Image := fun img wd ht =>
  { rows := ht.toNat, cols := wd.toNat, chans := img.chans,
    pix := fun r c ch => img.pix r c ch }

/-- A concrete circle collaborator (identity drawing). -/
def circleC : Image → Int × Int → Nat → Nat × Nat × Nat → Image := fun img _ _ _ => img

/-- A 0×0 3-channel frame. -/
def frame00 : Image := { rows := 0, cols := 0, chans := 3, pix := fun _ _ _ => 0 }

/-- A 1×1 3-channel frame. -/
def frame11 : Image := { rows := 1, cols := 1, chans := 3, pix := fun _ _ _ => 7 }

/-- A 2×2 3-channel frame. -/
def frame22 : Image := { rows := 2, cols := 2, chans := 3, pix := fun r c ch => 9 * r + 3 * c + ch }

/-- A 3×4 3-channel frame. -/
def frame34 : Image := { rows := 3, cols := 4, chans := 3, pix := fun r c ch => r + c + ch }

/-! ### Claim theorems -/

/-- Claim C1: for every valid configuration (tagSize > 0, tagBorder ≥ 0)
and every tracked scaled frame size (including (0,0)), the canvas buffer
allocated by `initFrame` has width `frameSize.width + 2·tagSize +
4·tagBorder` and height `frameSize.height + 2·tagBorder`. -/
theorem c1_canvas_size (w : ArucoWindow)
    (hts : 0 < w.tag_size) (htb : 0 ≤ w.tag_border)
    (hih : 0 ≤ w.img_height) (hiw : 0 ≤ w.img_width) :
    ∃ img, initFrame w = Except.ok { w with output_img := some img } ∧
      (img.cols : Int) = w.img_width + 2 * w.tag_size + 4 * w.tag_border ∧
      (img.rows : Int) = w.img_height + 2 * w.tag_border := by
  refine ⟨_, initFrame_eval w (by omega) (by omega), ?_, ?_⟩
  · show (((w.img_width + 2 * w.tag_size + 4 * w.tag_border).toNat : Int)) =
      w.img_width + 2 * w.tag_size + 4 * w.tag_border
    omega
  · show (((w.img_height + 2 * w.tag_border).toNat : Int)) = w.img_height + 2 * w.tag_border
    omega

/-- Witness for C1 at the default configuration with the initial tracked
size (0,0). -/
theorem c1_canvas_size_witness :
    0 < (init 100 10 1).tag_size ∧ 0 ≤ (init 100 10 1).tag_border ∧
    0 ≤ (init 100 10 1).img_height ∧ 0 ≤ (init 100 10 1).img_width ∧
    ∃ img, initFrame (init 100 10 1) =
        Except.ok { init 100 10 1 with output_img := some img } ∧
      (img.cols : Int) = (init 100 10 1).img_width + 2 * (init 100 10 1).tag_size +
        4 * (init 100 10 1).tag_border ∧
      (img.rows : Int) = (init 100 10 1).img_height + 2 * (init 100 10 1).tag_border :=
  ⟨by decide, by decide, by decide, by decide,
    c1_canvas_size (init 100 10 1) (by decide) (by decide) (by decide) (by decide)⟩

/-- Claim C8 counterexample: constructing the window object with
`tagSize = 0 ≤ 0` does not raise anything: `__init__` (lines 19-32) has no
validation and no raise statement, so construction yields an ordinary
fully populated state. -/
theorem c8_no_validation_cex :
    (init 0 10 1).tag_size = 0 ∧ (init 0 10 1).output_img = none ∧
    (init 0 10 1).img_height = 0 ∧ (init 0 10 1).img_width = 0 ∧
    (init 0 10 1).cursor = (0, 0) :=
  ⟨rfl, rfl, rfl, rfl, rfl⟩

/-- Claim C8 (amended): construction performs no validation; any
`tagSize ≤ 0` is accepted, the parameters are stored unchanged, and no
error is raised at construction time. -/
theorem c8_init_accepts_nonpositive (ts tb : Int) (rz : ℚ) (h : ts ≤ 0) :
    (init ts tb rz).tag_size = ts ∧ (init ts tb rz).tag_border = tb ∧
    (init ts tb rz).image_rescale = rz ∧ (init ts tb rz).output_img = none ∧
    (init ts tb rz).img_height = 0 ∧ (init ts tb rz).img_width = 0 :=
  ⟨rfl, rfl, rfl, rfl, rfl, rfl⟩

/-- Witness for the amended C8 at `tagSize = -5`. -/
theorem c8_init_accepts_nonpositive_witness :
    (-5 : Int) ≤ 0 ∧
    ((init (-5) 10 1).tag_size = -5 ∧ (init (-5) 10 1).tag_border = 10 ∧
      (init (-5) 10 1).image_rescale = 1 ∧ (init (-5) 10 1).output_img = none ∧
      (init (-5) 10 1).img_height = 0 ∧ (init (-5) 10 1).img_width = 0) :=
  ⟨by decide, c8_init_accepts_nonpositive (-5) 10 1 (by decide)⟩

/-- Claim C10: `updateCursor` modifies only the stored cursor position,
setting it to the truncated integer coordinates; every other field
(configuration, tracked size, and the base canvas buffer) is unchanged,
whether or not the buffer access succeeds. -/
theorem c10_cursor_only (circle : Image → Int × Int → Nat → Nat × Nat × Nat → Image)
    (w : ArucoWindow) (x y : ℚ) (corners : List (ℚ × ℚ)) :
    (updateCursor circle w x y corners).1.cursor = (pyInt x, pyInt y) ∧
    (updateCursor circle w x y corners).1.tag_size = w.tag_size ∧
    (updateCursor circle w x y corners).1.tag_border = w.tag_border ∧
    (updateCursor circle w x y corners).1.image_rescale = w.image_rescale ∧
    (updateCursor circle w x y corners).1.img_height = w.img_height ∧
    (updateCursor circle w x y corners).1.img_width = w.img_width ∧
    (updateCursor circle w x y corners).1.output_img = w.output_img := by
  have h := updateCursor_state circle w x y corners
  rw [h]
  exact ⟨rfl, rfl, rfl, rfl, rfl, rfl, rfl⟩

/-- Claim C7: any number of `updateCursor` calls leaves the base canvas
buffer pixel-identical (the overlay is drawn on a copy), and therefore a
subsequent `updateFrame` with the same frame produces the same canvas as
it would have without the cursor calls. -/
theorem c7_overlay_non_mutation (circle : Image → Int × Int → Nat → Nat × Nat × Nat → Image)
    (w : ArucoWindow) (calls : List (ℚ × ℚ × List (ℚ × ℚ)))
    (marker : Nat → Nat → Nat → Nat) (resizeFn : Image → Int → Int → Image) (frame : Image) :
    (runCursors circle w calls).output_img = w.output_img ∧
    canvasResult (updateFrame marker resizeFn (runCursors circle w calls) frame) =
      canvasResult (updateFrame marker resizeFn w frame) := by
  obtain ⟨c, hc⟩ := runCursors_eq_setCur circle w calls
  rw [hc]
  constructor
  · rfl
  · rw [updateFrame_setCur]
    rcases updateFrame marker resizeFn w frame with e | p <;> rfl

/-- Claim C9: `updateCursor` on a freshly constructed window fails (the
base canvas buffer is still `None`), and after any successful
`updateFrame` it succeeds. -/
theorem c9_cursor_needs_frame (circle : Image → Int × Int → Nat → Nat × Nat × Nat → Image)
    (ts tb : Int) (rz : ℚ) (x y : ℚ) (corners : List (ℚ × ℚ))
    (marker : Nat → Nat → Nat → Nat) (resizeFn : Image → Int → Int → Image)
    (w2 : ArucoWindow) (f : Image) (w3 : ArucoWindow) (b : Bool)
    (h : updateFrame marker resizeFn w2 f = Except.ok (w3, b)) :
    (updateCursor circle (init ts tb rz) x y corners).2 =
      Except.error "AttributeError: NoneType object has no attribute copy" ∧
    ∃ disp, (updateCursor circle w3 x y corners).2 = Except.ok disp := by
  constructor
  · rfl
  · obtain ⟨_, _, _, _, _, _, ⟨im, him⟩, _⟩ := updateFrame_ok_fields _ _ _ _ _ _ h
    rw [updateCursor, him]
    exact ⟨_, rfl⟩

/-- Witness for C9: a concrete successful `updateFrame`, after which
`updateCursor` succeeds, while on the fresh window it fails. -/
theorem c9_cursor_needs_frame_witness :
    ∃ w3 b, updateFrame markerC resizeC (init 1 1 1) frame22 = Except.ok (w3, b) ∧
      ((updateCursor circleC (init 100 10 1) 3 4 []).2 =
        Except.error "AttributeError: NoneType object has no attribute copy" ∧
      ∃ disp, (updateCursor circleC w3 3 4 []).2 = Except.ok disp) := by
  obtain ⟨w1, hok, hready⟩ := updateFrame_step_fresh markerC resizeC frame22 1 1 1 2 2
    (le_refl 1) (le_refl 1) (scaledHq_one frame22) (scaledWq_one frame22) (by omega)
    rfl rfl rfl (by decide)
  exact ⟨w1, true, hok,
    c9_cursor_needs_frame circleC 100 10 1 3 4 [] markerC resizeC (init 1 1 1) frame22
      w1 true hok⟩

/-- Claim C3 counterexample: at tagSize = 100, tagBorder = 10 and
frameSize = (0, 1) (height 1, a valid size ≥ (0,0)), the upper-left and
bottom-left tag rectangles both contain the point (row 10, col 10): the
bottom tag rows `[canvasH - 110, canvasH - 10) = [-89, 11)` overlap the
top tag rows `[10, 110)`. -/
theorem c3_layout_disjoint_cex :
    0 < (100 : Int) ∧ 0 ≤ (10 : Int) ∧ 0 ≤ (1 : Int) ∧ 0 ≤ (0 : Int) ∧
    ¬layoutDisjoint 100 10 1 0 := by
  refine ⟨by decide, by decide, by decide, by decide, fun h => ?_⟩
  exact h.2.2.1 (10, 10) ⟨by decide, by decide⟩

/-- Claim C3 (amended): the four corner tag rectangles and the interior
frame rectangle, as placed by the layout arithmetic of lines 60-71 and
89-91, are pairwise disjoint for every tagSize > 0, tagBorder ≥ 0 and
frameSize ≥ (0,0) whose height is zero or at least 2·tagSize; for
0 < frameHeight < 2·tagSize the bottom tag rows overlap the top tag
rows. -/
theorem c3_layout_disjoint (ts tb ih iw : Int)
    (hts : 0 < ts) (htb : 0 ≤ tb) (hih : 0 ≤ ih) (hiw : 0 ≤ iw)
    (hreg : ih = 0 ∨ 2 * ts ≤ ih) :
    layoutDisjoint ts tb ih iw := by
  refine ⟨?_, ?_, ?_, ?_, ?_, ?_, ?_, ?_, ?_, ?_⟩ <;>
  · intro p hp
    obtain ⟨⟨a1, a2, a3, a4⟩, b1, b2, b3, b4⟩ := hp
    simp only [ulRect, urRect, brRect, blRect, interiorRect, canvasH, canvasW] at *
    omega

/-- Witness for the amended C3 at the spec worked example: tagSize = 100,
tagBorder = 10, frame 640×480. -/
theorem c3_layout_disjoint_witness :
    0 < (100 : Int) ∧ 0 ≤ (10 : Int) ∧ 0 ≤ (480 : Int) ∧ 0 ≤ (640 : Int) ∧
    ((480 : Int) = 0 ∨ 2 * 100 ≤ (480 : Int)) ∧
    layoutDisjoint 100 10 480 640 :=
  ⟨by decide, by decide, by decide, by decide, by decide,
    c3_layout_disjoint 100 10 480 640 (by decide) (by decide) (by decide) (by decide)
      (by decide)⟩

/-- Claim C5 counterexample: with rescalePercent = 1/2 and a 3×4 input
frame, `updateFrame` succeeds (tagSize = tagBorder = 1) and tracks scaled
height `int(3 · 1/2) = 1`, whereas the rounded product is
`round(3 · 1/2) = 2`. -/
theorem c5_truncation_cex :
    ∃ w1 b, updateFrame markerC resizeC (init 1 1 (1/2)) frame34 = Except.ok (w1, b) ∧
      w1.img_height = 1 ∧ round ((frame34.rows : ℚ) * (1/2)) = 2 ∧
      w1.img_height ≠ round ((frame34.rows : ℚ) * (1/2)) := by
  have hcast : (frame34.rows : ℚ) = 3 := by norm_num [frame34]
  have hsH : scaledHq (1/2) frame34 = ((1 : Nat) : Int) := by
    rw [scaledHq, hcast, pyInt_eq_floor _ (by norm_num)]
    norm_num
  have hcastW : (frame34.cols : ℚ) = 4 := by norm_num [frame34]
  have hsW : scaledWq (1/2) frame34 = ((2 : Nat) : Int) := by
    rw [scaledWq, hcastW, pyInt_eq_floor _ (by norm_num)]
    norm_num
  have hround : round ((frame34.rows : ℚ) * (1/2)) = 2 := by
    rw [hcast, round_eq]
    norm_num
  obtain ⟨w1, hok, hready⟩ := updateFrame_step_fresh markerC resizeC frame34 (1/2) 1 1 1 2
    (le_refl 1) (le_refl 1) hsH hsW (by omega) rfl rfl rfl (by decide)
  refine ⟨w1, true, hok, ?_, hround, ?_⟩
  · exact hready.2.2.2.1
  · rw [hready.2.2.2.1, hround]
    decide

/-- Claim C5 (amended): for every input frame and every
rescalePercent ≥ 0, any successful `updateFrame` call leaves the tracked
scaled size equal to the truncated products
`(int(rawHeight · rescale), int(rawWidth · rescale))`, which for
nonnegative arguments are the floors of the products — not the rounded
products. -/
theorem c5_scaled_size_truncates (marker : Nat → Nat → Nat → Nat)
    (resizeFn : Image → Int → Int → Image) (w : ArucoWindow) (frame : Image)
    (w1 : ArucoWindow) (b : Bool)
    (hrz : 0 ≤ w.image_rescale)
    (h : updateFrame marker resizeFn w frame = Except.ok (w1, b)) :
    w1.img_height = ⌊(frame.rows : ℚ) * w.image_rescale⌋ ∧
    w1.img_width = ⌊(frame.cols : ℚ) * w.image_rescale⌋ := by
  obtain ⟨hH, hW, _⟩ := updateFrame_ok_fields _ _ _ _ _ _ h
  constructor
  · rw [hH, scaledH_rescale, scaledHq,
      pyInt_eq_floor _ (mul_nonneg (by positivity) hrz)]
  · rw [hW, scaledW_rescale, scaledWq,
      pyInt_eq_floor _ (mul_nonneg (by positivity) hrz)]

/-- Witness for the amended C5 at rescale 1/2 with a 3×4 frame. -/
theorem c5_scaled_size_truncates_witness :
    ∃ w1 b, (0 : ℚ) ≤ (init 1 1 (1/2)).image_rescale ∧
      updateFrame markerC resizeC (init 1 1 (1/2)) frame34 = Except.ok (w1, b) ∧
      (w1.img_height = ⌊(frame34.rows : ℚ) * (init 1 1 (1/2)).image_rescale⌋ ∧
        w1.img_width = ⌊(frame34.cols : ℚ) * (init 1 1 (1/2)).image_rescale⌋) := by
  have hcast : (frame34.rows : ℚ) = 3 := by norm_num [frame34]
  have hsH : scaledHq (1/2) frame34 = ((1 : Nat) : Int) := by
    rw [scaledHq, hcast, pyInt_eq_floor _ (by norm_num)]
    norm_num
  have hcastW : (frame34.cols : ℚ) = 4 := by norm_num [frame34]
  have hsW : scaledWq (1/2) frame34 = ((2 : Nat) : Int) := by
    rw [scaledWq, hcastW, pyInt_eq_floor _ (by norm_num)]
    norm_num
  obtain ⟨w1, hok, hready⟩ := updateFrame_step_fresh markerC resizeC frame34 (1/2) 1 1 1 2
    (le_refl 1) (le_refl 1) hsH hsW (by omega) rfl rfl rfl (by decide)
  exact ⟨w1, true, by show (0:ℚ) ≤ 1/2; norm_num, hok,
    c5_scaled_size_truncates markerC resizeC (init 1 1 (1/2)) frame34 w1 true
      (by show (0:ℚ) ≤ 1/2; norm_num) hok⟩

/-- Claim C6 counterexample: with the valid configuration tagSize = 100,
tagBorder = 10 and a frame of zero width and height (explicitly legal per
the claim), the very first `updateFrame` raises instead of producing a
degenerate canvas: the scaled size (0,0) equals the fresh tracked size, so
the reallocation branch is skipped and line 89 subscripts the still-`None`
buffer. -/
theorem c6_zero_frame_cex :
    0 < (init 100 10 1).tag_size ∧ 0 ≤ (init 100 10 1).tag_border ∧
    updateFrame markerC resizeC (init 100 10 1) frame00 =
      Except.error "TypeError: NoneType object is not subscriptable" := by
  refine ⟨by decide, by decide, ?_⟩
  rw [updateFrame,
    show scaledH (init 100 10 1) frame00 = ((0 : Nat) : Int) from scaledHq_one frame00,
    show scaledW (init 100 10 1) frame00 = ((0 : Nat) : Int) from scaledWq_one frame00]
  rfl

/-- Claim C6 (amended): `updateFrame` completes without error provided
tagSize ≥ 1, tagBorder ≥ 1, the state is well-formed, the scaled height
satisfies tagSize ≤ scaledHeight + tagBorder (so the tag rows fit in the
canvas), the resize collaborator honours the requested shape, and on the
very first call the scaled size is not (0,0).  Outside this regime the
call raises (None subscript or numpy broadcast error) rather than
producing a degenerate canvas. -/
theorem c6_no_failure (marker : Nat → Nat → Nat → Nat)
    (resizeFn : Image → Int → Int → Image) (w : ArucoWindow) (frame : Image)
    (T B ihN iwN : Nat)
    (hts : w.tag_size = (T : Int)) (htb : w.tag_border = (B : Int))
    (hT : 1 ≤ T) (hB : 1 ≤ B) (hwf : WF w)
    (hsH : scaledH w frame = (ihN : Int)) (hsW : scaledW w frame = (iwN : Int))
    (hsmall : T ≤ ihN + B)
    (hrr : (resizeFn frame (iwN : Int) (ihN : Int)).rows = ihN)
    (hrc : (resizeFn frame (iwN : Int) (ihN : Int)).cols = iwN)
    (hrch : (resizeFn frame (iwN : Int) (ihN : Int)).chans = 3)
    (hfirst : w.output_img = none → ¬(ihN = 0 ∧ iwN = 0)) :
    ∃ w1 b, updateFrame marker resizeFn w frame = Except.ok (w1, b) := by
  obtain ⟨w1, im, hok, _⟩ := updateFrame_total marker resizeFn w frame T B ihN iwN
    hts htb hT hB hwf hsH hsW (by omega)
    (by rw [hsH, hsW]; exact hrr) (by rw [hsH, hsW]; exact hrc)
    (by rw [hsH, hsW]; exact hrch) hfirst
  exact ⟨w1, _, hok⟩

/-- Witness for the amended C6 on a fresh window with a 2×2 frame at
tagSize = tagBorder = 1. -/
theorem c6_no_failure_witness :
    scaledH (init 1 1 1) frame22 = ((2 : Nat) : Int) ∧ (1 ≤ 2 + 1) ∧
    ∃ w1 b, updateFrame markerC resizeC (init 1 1 1) frame22 = Except.ok (w1, b) :=
  ⟨scaledHq_one frame22, by omega,
    c6_no_failure markerC resizeC (init 1 1 1) frame22 1 1 2 2 rfl rfl
      (le_refl 1) (le_refl 1) ⟨le_refl 0, le_refl 0, Or.inl ⟨rfl, rfl, rfl⟩⟩
      (scaledHq_one frame22) (scaledWq_one frame22) (by omega) rfl rfl rfl
      (fun _ => by decide)⟩

/-- Claim C2 counterexample: with tagSize = tagBorder = 1 and a 1×1 frame
(scaled height 1 = tagSize), `updateFrame` succeeds, but the bottom-left
tag write (rows `[-2:-1]` resolve to `[1, 2)`, the same band as the top
tags) lands exactly on the upper-left tag region: the upper-left corner
pixel at (tagBorder, tagBorder) = (1, 1) afterwards holds marker id 3,
not its own marker id 0. -/
theorem c2_corners_cex :
    Except.map (fun p => p.1.output_img.map (fun im => im.pix 1 1 0))
        (updateFrame markerId resizeC (init 1 1 1) frame11) =
      Except.ok (some (markerId 3 0 0)) ∧
    markerId 3 0 0 ≠ markerId 0 0 0 := by
  constructor
  · rw [updateFrame,
      show scaledH (init 1 1 1) frame11 = ((1 : Nat) : Int) from scaledHq_one frame11,
      show scaledW (init 1 1 1) frame11 = ((1 : Nat) : Int) from scaledWq_one frame11]
    rfl
  · decide

/-- Claim C2 (amended): after every `updateFrame` call that returns, on a
well-formed window whose canvas (if any) has intact corners, provided the
scaled frame height is 0 or at least 2·tagSize, the canvas interior at
offset (2·tagBorder + tagSize, tagBorder) holds exactly the resized input
frame and the four corner regions hold their marker bitmaps.  For scaled
heights strictly between 0 and 2·tagSize the bottom tag writes can
overwrite the top tag regions. -/
theorem c2_interior_and_corners (marker : Nat → Nat → Nat → Nat)
    (resizeFn : Image → Int → Int → Image) (w : ArucoWindow) (frame : Image)
    (w1 : ArucoWindow) (b : Bool) (T B ihN iwN : Nat)
    (hts : w.tag_size = (T : Int)) (htb : w.tag_border = (B : Int))
    (hT : 1 ≤ T) (hB : 1 ≤ B)
    (hwf : WF w) (hwfc : WFC marker w)
    (hsH : scaledH w frame = (ihN : Int)) (hsW : scaledW w frame = (iwN : Int))
    (hih : ihN = 0 ∨ 2 * T ≤ ihN)
    (hrr : (resizeFn frame (iwN : Int) (ihN : Int)).rows = ihN)
    (hrc : (resizeFn frame (iwN : Int) (ihN : Int)).cols = iwN)
    (hrch : (resizeFn frame (iwN : Int) (ihN : Int)).chans = 3)
    (h : updateFrame marker resizeFn w frame = Except.ok (w1, b)) :
    ∃ im, w1.output_img = some im ∧
      interiorIs T B (resizeFn frame (scaledW w frame) (scaledH w frame)) im ∧
      cornersAre T B ihN iwN marker im :=
  updateFrame_content marker resizeFn w frame w1 b T B ihN iwN hts htb hT hB hwf hwfc
    hsH hsW hih
    (by rw [hsH, hsW]; exact hrr) (by rw [hsH, hsW]; exact hrc)
    (by rw [hsH, hsW]; exact hrch) h

/-- Witness for the amended C2: a fresh window with tagSize = tagBorder = 1
and a 2×2 frame (scaled height 2 = 2·tagSize). -/
theorem c2_interior_and_corners_witness :
    ∃ w1 b, updateFrame markerC resizeC (init 1 1 1) frame22 = Except.ok (w1, b) ∧
      ∃ im, w1.output_img = some im ∧
        interiorIs 1 1 (resizeC frame22 (scaledW (init 1 1 1) frame22)
          (scaledH (init 1 1 1) frame22)) im ∧
        cornersAre 1 1 2 2 markerC im := by
  obtain ⟨w1, hok, hready⟩ := updateFrame_step_fresh markerC resizeC frame22 1 1 1 2 2
    (le_refl 1) (le_refl 1) (scaledHq_one frame22) (scaledWq_one frame22) (by omega)
    rfl rfl rfl (by decide)
  exact ⟨w1, true, hok,
    c2_interior_and_corners markerC resizeC (init 1 1 1) frame22 w1 true 1 1 2 2
      rfl rfl (le_refl 1) (le_refl 1)
      ⟨le_refl 0, le_refl 0, Or.inl ⟨rfl, rfl, rfl⟩⟩
      (fun img himg => nomatch himg)
      (scaledHq_one frame22) (scaledWq_one frame22) (Or.inr (by omega))
      rfl rfl rfl hok⟩

/-- Claim C4 counterexample: for the distinct scaled sizes A = (0,0) and
B = (1,1) at the default configuration, the A, A, B, B, A run does not
trigger reallocation on calls 1, 3 and 5: the very first call already
raises (scaled size (0,0) equals the fresh tracked size, so no
reallocation happens and the `None` buffer is subscripted), and the run
aborts with an exception instead of completing with that flag pattern. -/
theorem c4_realloc_pattern_cex :
    updateFrame markerC resizeC (init 100 10 1) frame00 =
      Except.error "TypeError: NoneType object is not subscriptable" ∧
    runUpdates markerC resizeC (init 100 10 1)
        [frame00, frame00, frame11, frame11, frame00] =
      Except.error "TypeError: NoneType object is not subscriptable" := by
  have h : updateFrame markerC resizeC (init 100 10 1) frame00 =
      Except.error "TypeError: NoneType object is not subscriptable" := by
    rw [updateFrame,
      show scaledH (init 100 10 1) frame00 = ((0 : Nat) : Int) from scaledHq_one frame00,
      show scaledW (init 100 10 1) frame00 = ((0 : Nat) : Int) from scaledWq_one frame00]
    rfl
  exact ⟨h, by simp only [runUpdates, h]⟩

/-- Claim C4 (amended): the reallocation branch of a successful
`updateFrame` call runs exactly when the line-81 condition holds (the
scaled size differs from the tracked size); and for every pair of distinct
nonzero scaled sizes A, B whose heights satisfy
tagSize ≤ height + tagBorder (with tagSize, tagBorder ≥ 1, so that every
call returns), feeding frames of sizes A, A, B, B, A from a fresh window
reallocates on calls 1, 3 and 5 only, and repeated calls with the same
scaled size reallocate exactly once, on the first call.  With a zero
scaled size the first call raises instead. -/
theorem c4_realloc_iff_and_pattern (marker : Nat → Nat → Nat → Nat)
    (resizeFn : Image → Int → Int → Image) (T B : Nat) (rz : ℚ) (f g : Image)
    (ihA iwA ihB iwB : Nat)
    (hT : 1 ≤ T) (hB : 1 ≤ B)
    (hsHA : scaledHq rz f = (ihA : Int)) (hsWA : scaledWq rz f = (iwA : Int))
    (hsHB : scaledHq rz g = (ihB : Int)) (hsWB : scaledWq rz g = (iwB : Int))
    (hTA : T ≤ ihA + B) (hTB2 : T ≤ ihB + B)
    (hAnz : ¬(ihA = 0 ∧ iwA = 0))
    (hne : ¬(ihB = ihA ∧ iwB = iwA))
    (hrrA : (resizeFn f (iwA : Int) (ihA : Int)).rows = ihA)
    (hrcA : (resizeFn f (iwA : Int) (ihA : Int)).cols = iwA)
    (hrchA : (resizeFn f (iwA : Int) (ihA : Int)).chans = 3)
    (hrrB : (resizeFn g (iwB : Int) (ihB : Int)).rows = ihB)
    (hrcB : (resizeFn g (iwB : Int) (ihB : Int)).cols = iwB)
    (hrchB : (resizeFn g (iwB : Int) (ihB : Int)).chans = 3) :
    (∀ w2 f2 w3 b2, updateFrame marker resizeFn w2 f2 = Except.ok (w3, b2) →
        b2 = reallocB w2 f2) ∧
    (∃ w5, runUpdates marker resizeFn (init (T : Int) (B : Int) rz)
        [f, f, g, g, f] = Except.ok (w5, [true, false, true, false, true])) ∧
    (∀ n, ∃ wn, runUpdates marker resizeFn (init (T : Int) (B : Int) rz)
        (f :: List.replicate n f) = Except.ok (wn, true :: List.replicate n false)) := by
  refine ⟨fun w2 f2 w3 b2 h =>
    (updateFrame_ok_fields marker resizeFn w2 f2 w3 b2 h).2.2.2.2.2.2.2, ?_, ?_⟩
  · obtain ⟨w1, h1, r1⟩ := updateFrame_step_fresh marker resizeFn f rz T B ihA iwA
      hT hB hsHA hsWA (by omega) hrrA hrcA hrchA hAnz
    obtain ⟨w2, h2, r2⟩ := updateFrame_step_ready marker resizeFn f rz T B ihA iwA ihA iwA
      w1 hT hB hsHA hsWA (by omega) hrrA hrcA hrchA r1
    have e2 : ((ihA != ihA) || (iwA != iwA)) = false := by simp
    rw [e2] at h2
    obtain ⟨w3, h3, r3⟩ := updateFrame_step_ready marker resizeFn g rz T B ihA iwA ihB iwB
      w2 hT hB hsHB hsWB (by omega) hrrB hrcB hrchB r2
    have e3 : ((ihB != ihA) || (iwB != iwA)) = true := by
      rcases not_and_or.mp hne with h | h <;> simp [h]
    rw [e3] at h3
    obtain ⟨w4, h4, r4⟩ := updateFrame_step_ready marker resizeFn g rz T B ihB iwB ihB iwB
      w3 hT hB hsHB hsWB (by omega) hrrB hrcB hrchB r3
    have e4 : ((ihB != ihB) || (iwB != iwB)) = false := by simp
    rw [e4] at h4
    obtain ⟨w5, h5, r5⟩ := updateFrame_step_ready marker resizeFn f rz T B ihB iwB ihA iwA
      w4 hT hB hsHA hsWA (by omega) hrrA hrcA hrchA r4
    have e5 : ((ihA != ihB) || (iwA != iwB)) = true := by
      have hne2 : ¬(ihA = ihB ∧ iwA = iwB) := fun hp => hne ⟨hp.1.symm, hp.2.symm⟩
      rcases not_and_or.mp hne2 with h | h <;> simp [h]
    rw [e5] at h5
    exact ⟨w5, by simp only [runUpdates, h1, h2, h3, h4, h5]⟩
  · intro n
    obtain ⟨w1, h1, r1⟩ := updateFrame_step_fresh marker resizeFn f rz T B ihA iwA
      hT hB hsHA hsWA (by omega) hrrA hrcA hrchA hAnz
    obtain ⟨wn, hrun, _⟩ := runUpdates_replicate marker resizeFn f rz T B ihA iwA
      hT hB hsHA hsWA (by omega) hrrA hrcA hrchA n w1 r1
    exact ⟨wn, by simp only [runUpdates, h1, hrun]⟩

/-- Witness for the amended C4 with A = (2,2) (a 2×2 frame) and
B = (3,4) (a 3×4 frame) at tagSize = tagBorder = 1, rescale 1. -/
theorem c4_realloc_iff_and_pattern_witness :
    ¬((3 : Nat) = 2 ∧ (4 : Nat) = 2) ∧
    ((∀ w2 f2 w3 b2, updateFrame markerC resizeC w2 f2 = Except.ok (w3, b2) →
        b2 = reallocB w2 f2) ∧
     (∃ w5, runUpdates markerC resizeC (init 1 1 1)
        [frame22, frame22, frame34, frame34, frame22] =
          Except.ok (w5, [true, false, true, false, true])) ∧
     (∀ n, ∃ wn, runUpdates markerC resizeC (init 1 1 1)
        (frame22 :: List.replicate n frame22) =
          Except.ok (wn, true :: List.replicate n false))) :=
  ⟨by decide,
    c4_realloc_iff_and_pattern markerC resizeC 1 1 1 frame22 frame34 2 2 3 4
      (le_refl 1) (le_refl 1)
      (scaledHq_one frame22) (scaledWq_one frame22)
      (scaledHq_one frame34) (scaledWq_one frame34)
      (by omega) (by omega) (by decide) (by decide)
      rfl rfl rfl rfl rfl rfl⟩

end Aruco
